import Mathlib

/-!
Verification of the `intermediate_integration` generator of reasoning-gym
(`reasoning_gym/algebra/intermediate_integration.py`) against its
natural-language specification.

The Python source is shallowly embedded: machine integers are `Int`,
Python floats appearing only as branch probabilities are `ℚ`, sympy
expressions are an explicit AST (`RG.Expr`), and Python's `random.Random`
is a deterministic pure PRNG model.  Fallible Python code (asserts,
`try`/`except`, dict access) is embedded with `Except`/`Option`.
-/

set_option autoImplicit false

namespace RG

/-! ## Model of Python `random.Random`

Python's `random.Random(seed)` is a Mersenne-Twister PRNG.  The claims
under verification depend only on it being a *deterministic pure function
of the seed*, freshly constructed per call, with `randint a b` landing in
`[a, b]` and `choice` returning a member of its population.  We model it
as a simple deterministic stream: a seed plus a draw counter, with a
mixing function standing in for the Mersenne-Twister output. -/

structure PyRandom where
  seed : Int
  counter : Nat
deriving Repr, DecidableEq

/-- Model of `random.Random(seed)`: a fresh generator state. -/
def PyRandom.mkGen (seed : Int) : PyRandom := ⟨seed, 0⟩

/-- One raw output word of the modelled PRNG: a pure function of
`(seed, counter)` standing in for the Mersenne-Twister stream. -/
def PyRandom.next (r : PyRandom) : Nat × PyRandom :=
  (((r.seed * 1103515245 + 12345).natAbs + r.counter * 2654435761) % 2147483647,
    ⟨r.seed, r.counter + 1⟩)

/-- Model of `rng.randint(a, b)` (inclusive bounds).  For `a ≤ b` the
result lies in `[a, b]`.  (Python raises `ValueError` when `a > b`; the
model is total and returns an arbitrary deterministic value there — no
verified claim depends on that path's value.) -/
def PyRandom.randint (r : PyRandom) (a b : Int) : Int × PyRandom :=
  (a + (r.next.1 : Int) % (b - a + 1), r.next.2)

/-- Total model of `rng.choice(population)`: picks a member by a
PRNG-derived index.  On an empty population Python raises `IndexError`;
this total variant returns `dflt` there instead, and is used where a
surrounding hypothesis (an item was actually produced, or the population
is a non-empty literal) makes that path irrelevant.  The raising
behaviour itself is modelled faithfully by `PyRandom.choiceE` below. -/
def PyRandom.choice {α : Type} (r : PyRandom) (l : List α) (dflt : α) : α × PyRandom :=
  (l.getD (r.next.1 % l.length) dflt, r.next.2)

/-- Faithful model of `rng.choice(population)`: `none` models the
`IndexError` Python raises on an empty population; otherwise the member
at the PRNG-derived index. -/
def PyRandom.choiceE {α : Type} (r : PyRandom) (l : List α) : Option (α × PyRandom) :=
  match l with
  | [] => none
  | a :: _ => some (l.getD (r.next.1 % l.length) a, r.next.2)

/-- Model of `rng.choices(population, weights=w, k=1)[0]`: weighted
selection of one member, modelled at interface level as a PRNG-derived
index into the population (the claims use only that the result is a
member of the population and a pure function of the generator state). -/
def PyRandom.choicesOne {α : Type} (r : PyRandom) (l : List α) (dflt : α) : α × PyRandom :=
  (l.getD (r.next.1 % l.length) dflt, r.next.2)

/-- Model of `rng.random()`: thousandths of the unit interval standing
in for the Python float (only used to decide a branch against the
threshold `0.8`, i.e. 800 thousandths). -/
def PyRandom.randfloat (r : PyRandom) : Nat × PyRandom :=
  (r.next.1 % 1000, r.next.2)

/-! ## Kernel-computable rational numbers

`Rat` arithmetic does not reduce in the kernel, so the symbolic engine
uses `QQ`: an (unnormalized) integer fraction.  All operations keep the
denominator nonzero; equality is value equality by cross-multiplication.
`QQ.val` maps into `ℚ` for the verification lemmas. -/

structure QQ where
  num : Int
  den : Int
deriving Repr, DecidableEq

/-- The fraction `n / 1`. -/
@[reducible] def QQ.ofInt (n : Int) : QQ := ⟨n, 1⟩

def QQ.addQ (a b : QQ) : QQ := ⟨a.num * b.den + b.num * a.den, a.den * b.den⟩

def QQ.negQ (a : QQ) : QQ := ⟨-a.num, a.den⟩

def QQ.subQ (a b : QQ) : QQ := a.addQ b.negQ

def QQ.mulQ (a b : QQ) : QQ := ⟨a.num * b.num, a.den * b.den⟩

def QQ.invQ (a : QQ) : QQ := ⟨a.den, a.num⟩

def QQ.divQ (a b : QQ) : QQ := a.mulQ b.invQ

/-- Value is zero (exact for a nonzero denominator). -/
def QQ.isZero (a : QQ) : Bool := a.num == 0

/-- Value equality by cross-multiplication. -/
def QQ.eqQ (a b : QQ) : Bool := a.num * b.den == b.num * a.den

/-- The value is an integer. -/
def QQ.isInt (a : QQ) : Bool := a.num % a.den == 0

/-- The integer value (exact when `isInt`). -/
def QQ.toIntVal (a : QQ) : Int := a.num / a.den

def QQ.powNat (a : QQ) : Nat → QQ
  | 0 => ⟨1, 1⟩
  | k + 1 => a.mulQ (a.powNat k)

def QQ.powInt (a : QQ) (n : Int) : QQ :=
  if 0 ≤ n then a.powNat n.toNat else a.invQ.powNat (-n).toNat

/-- Semantics of a `QQ` in `ℚ` (used only in proofs). -/
def QQ.val (a : QQ) : ℚ := (a.num : ℚ) / (a.den : ℚ)

/-! ## Model of sympy expressions

`Expr` embeds the fragment of sympy expressions this generator builds:
integer/rational constants, symbols, `+`, `*`, powers with rational
literal exponents (covering `**n` and `sqrt` via exponent `1/2`),
the transcendental functions used, applications of *undefined* functions
(`sympy.Function(name)(arg)`, produced at line 164 of the source),
unevaluated integrals (`sympy.Integral`, what `sympy.integrate` returns
when it cannot evaluate), and unevaluated derivatives of undefined
functions. -/

inductive Expr where
  | intC : Int → Expr
  | ratC : QQ → Expr
  | sym : String → Expr
  | add : Expr → Expr → Expr
  | mul : Expr → Expr → Expr
  | pow : Expr → QQ → Expr
  | sin : Expr → Expr
  | cos : Expr → Expr
  | exp : Expr → Expr
  | log : Expr → Expr
  | asin : Expr → Expr
  | atan : Expr → Expr
  | ufun : String → Expr → Expr
  | integralOf : Expr → String → Expr
  | dfun : String → Expr → Expr
deriving Repr, DecidableEq

/-- Model of sympy subtraction `a - b` (sympy represents it as
`Add(a, Mul(-1, b))`). -/
def Expr.subE (a b : Expr) : Expr := Expr.add a (Expr.mul (Expr.intC (-1)) b)

/-- Model of sympy `sqrt`. -/
def Expr.sqrtE (a : Expr) : Expr := Expr.pow a ⟨1, 2⟩

/-! ## Configuration (`IntermediateIntegrationConfig`) -/

/-- Shallow embedding of `IntermediateIntegrationConfig` (source lines
11–41) with its Python default values.  `problem_types`, `symbols` and
`operators` are Python tuples of strings (`symbols` is the string `"x"`,
iterated character-wise by `validate` and indexed by `rng.choice`, so it
is embedded as the list of its one-character strings). -/
structure IIConfig where
  problem_types : List String :=
    ["linear", "radical", "log_inverse_trig", "trigonometric",
     "polynomial_exp_trig", "exponential", "cyclic", "repeated_parts"]
  problem_type_weights : List ℚ :=
    [1/8, 1/8, 1/8, 1/8, 1/8, 1/8, 1/8, 1/8]
  seed : Option Int := none
  size : Int := 500
  linear_lower_bound : Int := 1
  linear_upper_bound : Int := 10
  min_linear_degree : Int := 2
  max_linear_degree : Int := 4
  outer_constant_min : Int := 1
  outer_constant_max : Int := 3
  min_poly_degree : Int := 1
  max_poly_degree : Int := 3
  symbols : List String := ["x"]
  operators : List String := ["+", "-"]
deriving Repr, DecidableEq

/-- The default configuration (all fields at their Python defaults). -/
def IIConfig.default : IIConfig := {}

/-- Model of a sequence of Python `assert cond, msg` statements: raise
(`Except.error`) the message of the first failing condition, in order. -/
def firstFailure (checks : List (Bool × String)) : Except String Unit :=
  match checks.find? (fun p => !p.1) with
  | some p => .error p.2
  | none => .ok ()

/-- The ordered assert conditions and messages of
`IntermediateIntegrationConfig.validate` (source lines 43–58). -/
def IIConfig.checks (c : IIConfig) : List (Bool × String) :=
  [ (c.problem_types.length == c.problem_type_weights.length,
     "problem_types and problem_type_weights must have the same length"),
    (decide (c.size > 0), "size must be positive"),
    (decide (c.linear_lower_bound > 0), "linear_lower_bound must be positive"),
    (decide (c.linear_upper_bound ≥ c.linear_lower_bound),
     "linear_upper_bound must be >= linear_lower_bound"),
    (decide (c.min_linear_degree > 0), "min_linear_degree must be positive"),
    (decide (c.max_linear_degree ≥ c.min_linear_degree),
     "max_linear_degree must be >= min_linear_degree"),
    (decide (c.outer_constant_min > 0), "outer_constant_min must be positive"),
    (decide (c.outer_constant_max ≥ c.outer_constant_min),
     "outer_constant_max must be >= outer_constant_min"),
    (decide (c.min_poly_degree > 0), "min_poly_degree must be positive"),
    (decide (c.max_poly_degree ≥ c.min_poly_degree),
     "max_poly_degree must be >= min_poly_degree"),
    (c.operators.all (fun op => op == "+" || op == "-"), "invalid operator specified"),
    (c.symbols.all (fun s => s == "x" || s == "X"), "invalid symbol specified") ]

/-- Shallow embedding of `IntermediateIntegrationConfig.validate`
(source lines 43–58): raises (models `AssertionError`) on the first
violated constraint, in source order. -/
def IIConfig.validate (c : IIConfig) : Except String Unit :=
  firstFailure c.checks

/-! ## Curriculum (`IntermediateIntegrationCurriculum`)

The curriculum *engine* (`BaseCurriculum`, `ScalarAttributeDefinition`
from `reasoning_gym.coaching`) is code of this repository that is not
under `src/`; it is modelled from the spec below.  The attribute levels
themselves are source (lines 275–291). -/

/-- Modelled from the spec: `ScalarAttributeDefinition` — a name, the
configuration field it controls, and an ordered list of levels
(`reasoning_gym.coaching` is not under `src/`). -/
structure ScalarAttributeDef (α : Type) where
  name : String
  field_name : String
  levels : List α
  description : String

/-- The `problem_type_weights` attribute defined by
`IntermediateIntegrationCurriculum.__init__` (source lines 275–291):
eight one-hot weight vectors. -/
def iiWeightAttr : ScalarAttributeDef (List ℚ) :=
  { name := "problem_type_weights"
    field_name := "problem_type_weights"
    levels :=
      [[1, 0, 0, 0, 0, 0, 0, 0],
       [0, 1, 0, 0, 0, 0, 0, 0],
       [0, 0, 1, 0, 0, 0, 0, 0],
       [0, 0, 0, 1, 0, 0, 0, 0],
       [0, 0, 0, 0, 1, 0, 0, 0],
       [0, 0, 0, 0, 0, 1, 0, 0],
       [0, 0, 0, 0, 0, 0, 1, 0],
       [0, 0, 0, 0, 0, 0, 0, 1]]
    description := "The weights of the problem types" }

/-- Modelled from the spec: the per-attribute mutable state of a
`BaseCurriculum` — the current level index of its single attribute,
starting at the initial state 0. -/
structure IICurriculum where
  level : Nat := 0
deriving Repr, DecidableEq

/-- Modelled from the spec: `increment_attr_level` moves the level index
by +1 clamped to `[0, num_levels-1]`; moving past the end is a no-op. -/
def IICurriculum.increment_attr_level (c : IICurriculum) : IICurriculum :=
  ⟨min (c.level + 1) (iiWeightAttr.levels.length - 1)⟩

/-- Modelled from the spec: `decrement_attr_level` moves the level index
by -1 clamped to `[0, num_levels-1]`; moving past 0 is a no-op. -/
def IICurriculum.decrement_attr_level (c : IICurriculum) : IICurriculum :=
  ⟨c.level - 1⟩

/-- Modelled from the spec: `get_attr_level` returns the current level
index. -/
def IICurriculum.get_attr_level (c : IICurriculum) : Nat := c.level

/-- Modelled from the spec: configuration materialization — the default
configuration with the attribute-controlled field overridden by the
value at the attribute's current level. -/
def IICurriculum.materialize (c : IICurriculum) : IIConfig :=
  { IIConfig.default with
    problem_type_weights :=
      iiWeightAttr.levels.getD c.level IIConfig.default.problem_type_weights }

/-- Level states reachable from the initial state by any sequence of
`increment_attr_level` / `decrement_attr_level` calls. -/
inductive IICurriculum.Reachable : IICurriculum → Prop where
  | init : IICurriculum.Reachable {}
  | inc {c : IICurriculum} : IICurriculum.Reachable c →
      IICurriculum.Reachable c.increment_attr_level
  | dec {c : IICurriculum} : IICurriculum.Reachable c →
      IICurriculum.Reachable c.decrement_attr_level

/-! ## Model of `sympy.integrate` and string round-tripping -/

/-- The AST `1 - u**2`, shared between the model of `sympy.diff` on
`asin` and the antiderivative of `asin`, exactly as sympy's own chain
rule and integration produce matching sub-expressions. -/
def oneMinusSq (u : Expr) : Expr := Expr.subE (Expr.intC 1) (Expr.pow u (QQ.ofInt 2))

/-- The AST `1 + u**2` (for `atan`). -/
def onePlusSq (u : Expr) : Expr := Expr.add (Expr.intC 1) (Expr.pow u (QQ.ofInt 2))

/-- Antiderivative of `x**n * exp(x)` by repeated integration by parts:
`∫ x^(k+1) e^x = x^(k+1) e^x - (k+1) ∫ x^k e^x`. -/
def intPowExp (w : String) : Nat → Expr
  | 0 => Expr.exp (Expr.sym w)
  | k + 1 =>
      Expr.subE
        (Expr.mul (Expr.pow (Expr.sym w) (QQ.ofInt ((k : Int) + 1))) (Expr.exp (Expr.sym w)))
        (Expr.mul (Expr.intC ((k : Int) + 1)) (intPowExp w k))

/-- Antiderivatives of `x**n * sin(x)` and `x**n * cos(x)` by repeated
integration by parts (the pair `(∫ x^n sin x, ∫ x^n cos x)`). -/
def intPowSinCos (w : String) : Nat → Expr × Expr
  | 0 => (Expr.mul (Expr.intC (-1)) (Expr.cos (Expr.sym w)), Expr.sin (Expr.sym w))
  | k + 1 =>
      let p := intPowSinCos w k
      (Expr.add
        (Expr.mul (Expr.intC (-1))
          (Expr.mul (Expr.pow (Expr.sym w) (QQ.ofInt ((k : Int) + 1))) (Expr.cos (Expr.sym w))))
        (Expr.mul (Expr.intC ((k : Int) + 1)) p.2),
       Expr.subE
        (Expr.mul (Expr.pow (Expr.sym w) (QQ.ofInt ((k : Int) + 1))) (Expr.sin (Expr.sym w)))
        (Expr.mul (Expr.intC ((k : Int) + 1)) p.1))

/-- Model of `sympy.integrate(e, Symbol(v))`, restricted to the
expression class this dataset generates (sympy is an external
collaborator; the spec specifies it only at its capability interface).
Recognized shapes get their sympy closed forms; anything else —
including products with an *undefined* function, which sympy cannot
integrate — is returned as an unevaluated `Integral`. -/
def integrateE (e : Expr) (v : String) : Expr :=
  match e with
  | Expr.mul (Expr.intC c)
      (Expr.pow (Expr.add (Expr.mul (Expr.intC a) (Expr.sym w)) (Expr.intC b)) n) =>
      if w = v then
        Expr.mul (Expr.ratC (QQ.divQ (QQ.ofInt c)
            (QQ.mulQ (QQ.ofInt a) (QQ.addQ n (QQ.ofInt 1)))))
          (Expr.pow (Expr.add (Expr.mul (Expr.intC a) (Expr.sym w)) (Expr.intC b))
            (QQ.addQ n (QQ.ofInt 1)))
      else Expr.integralOf e v
  | Expr.mul (Expr.intC c)
      (Expr.mul (Expr.intC k)
        (Expr.pow (Expr.add (Expr.mul (Expr.intC a) (Expr.sym w)) (Expr.intC b)) q)) =>
      if w = v then
        Expr.mul (Expr.ratC (QQ.divQ (QQ.ofInt (c * k))
            (QQ.mulQ (QQ.ofInt a) (QQ.addQ q (QQ.ofInt 1)))))
          (Expr.pow (Expr.add (Expr.mul (Expr.intC a) (Expr.sym w)) (Expr.intC b))
            (QQ.addQ q (QQ.ofInt 1)))
      else Expr.integralOf e v
  | Expr.mul (Expr.intC c)
      (Expr.mul (Expr.mul (Expr.intC k) (Expr.cos inner)) (Expr.pow (Expr.sin inner2) p)) =>
      match inner with
      | Expr.add (Expr.mul (Expr.intC a) (Expr.sym w)) (Expr.intC _) =>
          if inner2 = inner ∧ w = v then
            Expr.mul (Expr.ratC (QQ.divQ (QQ.ofInt (c * k))
                (QQ.mulQ (QQ.ofInt a) (QQ.addQ p (QQ.ofInt 1)))))
              (Expr.pow (Expr.sin inner) (QQ.addQ p (QQ.ofInt 1)))
          else Expr.integralOf e v
      | _ => Expr.integralOf e v
  | Expr.mul (Expr.intC c)
      (Expr.mul (Expr.mul (Expr.intC k) (Expr.sin inner)) (Expr.pow (Expr.cos inner2) p)) =>
      match inner with
      | Expr.add (Expr.mul (Expr.intC a) (Expr.sym w)) (Expr.intC _) =>
          if inner2 = inner ∧ w = v then
            Expr.mul (Expr.ratC (QQ.divQ (QQ.ofInt (-(c * k)))
                (QQ.mulQ (QQ.ofInt a) (QQ.addQ p (QQ.ofInt 1)))))
              (Expr.pow (Expr.cos inner) (QQ.addQ p (QQ.ofInt 1)))
          else Expr.integralOf e v
      | _ => Expr.integralOf e v
  | Expr.mul (Expr.mul (Expr.intC c) du) (Expr.exp u) =>
      match u, du with
      | Expr.add (Expr.mul (Expr.intC t0) (Expr.sym w)) (Expr.intC _), Expr.intC d0 =>
          if w = v then
            Expr.mul (Expr.ratC (QQ.divQ (QQ.ofInt (c * d0)) (QQ.ofInt t0))) (Expr.exp u)
          else Expr.integralOf e v
      | Expr.add (Expr.add (Expr.mul (Expr.intC q0) (Expr.pow (Expr.sym w) qe))
            (Expr.mul (Expr.intC q1) (Expr.sym w2))) (Expr.intC _),
        Expr.add (Expr.mul (Expr.intC e0) (Expr.sym w3)) (Expr.intC e1) =>
          if w = v ∧ w2 = v ∧ w3 = v ∧ qe = QQ.ofInt 2 ∧
              e0 * q1 = e1 * (2 * q0) ∧ q0 ≠ 0 then
            Expr.mul (Expr.ratC (QQ.divQ (QQ.ofInt (c * e0)) (QQ.ofInt (2 * q0)))) (Expr.exp u)
          else Expr.integralOf e v
      | _, _ => Expr.integralOf e v
  | Expr.mul (Expr.intC c) (Expr.log arg) =>
      match arg with
      | Expr.sym w =>
          if w = v then
            Expr.mul (Expr.intC c)
              (Expr.subE (Expr.mul (Expr.sym w) (Expr.log (Expr.sym w))) (Expr.sym w))
          else Expr.integralOf e v
      | Expr.pow (Expr.sym w) d =>
          if w = v then
            Expr.mul (Expr.intC c)
              (Expr.subE (Expr.mul (Expr.sym w) (Expr.log (Expr.pow (Expr.sym w) d)))
                (Expr.mul (Expr.ratC d) (Expr.sym w)))
          else Expr.integralOf e v
      | _ => Expr.integralOf e v
  | Expr.mul (Expr.intC c) (Expr.asin (Expr.mul (Expr.intC k) (Expr.sym w))) =>
      if w = v then
        Expr.mul (Expr.intC c)
          (Expr.add (Expr.mul (Expr.sym w) (Expr.asin (Expr.mul (Expr.intC k) (Expr.sym w))))
            (Expr.mul (Expr.ratC (QQ.invQ (QQ.ofInt k)))
              (Expr.pow (oneMinusSq (Expr.mul (Expr.intC k) (Expr.sym w))) ⟨1, 2⟩)))
      else Expr.integralOf e v
  | Expr.mul (Expr.intC c) (Expr.atan (Expr.mul (Expr.intC k) (Expr.sym w))) =>
      if w = v then
        Expr.mul (Expr.intC c)
          (Expr.subE (Expr.mul (Expr.sym w) (Expr.atan (Expr.mul (Expr.intC k) (Expr.sym w))))
            (Expr.mul (Expr.ratC (QQ.invQ (QQ.ofInt (2 * k))))
              (Expr.log (onePlusSq (Expr.mul (Expr.intC k) (Expr.sym w))))))
      else Expr.integralOf e v
  | Expr.mul (Expr.intC _) (Expr.mul (Expr.pow (Expr.sym _) _) (Expr.ufun _ _)) =>
      Expr.integralOf e v
  | Expr.mul (Expr.intC c) (Expr.mul (Expr.pow (Expr.sym w) n) (Expr.exp (Expr.sym w2))) =>
      if w = v ∧ w2 = w ∧ n.isInt = true ∧ 0 ≤ n.toIntVal then
        Expr.mul (Expr.intC c) (intPowExp w n.toIntVal.toNat)
      else Expr.integralOf e v
  | Expr.mul (Expr.intC c) (Expr.mul (Expr.pow (Expr.sym w) n) (Expr.sin (Expr.sym w2))) =>
      if w = v ∧ w2 = w ∧ n.isInt = true ∧ 0 ≤ n.toIntVal then
        Expr.mul (Expr.intC c) (intPowSinCos w n.toIntVal.toNat).1
      else Expr.integralOf e v
  | Expr.mul (Expr.intC c) (Expr.mul (Expr.pow (Expr.sym w) n) (Expr.cos (Expr.sym w2))) =>
      if w = v ∧ w2 = w ∧ n.isInt = true ∧ 0 ≤ n.toIntVal then
        Expr.mul (Expr.intC c) (intPowSinCos w n.toIntVal.toNat).2
      else Expr.integralOf e v
  | Expr.mul (Expr.intC c) (Expr.mul (Expr.exp (Expr.sym w)) (Expr.sin (Expr.sym w2))) =>
      if w = v ∧ w2 = w then
        Expr.mul (Expr.ratC (QQ.divQ (QQ.ofInt c) (QQ.ofInt 2)))
          (Expr.subE (Expr.mul (Expr.exp (Expr.sym w)) (Expr.sin (Expr.sym w)))
            (Expr.mul (Expr.exp (Expr.sym w)) (Expr.cos (Expr.sym w))))
      else Expr.integralOf e v
  | Expr.mul (Expr.intC c) (Expr.mul (Expr.exp (Expr.sym w)) (Expr.cos (Expr.sym w2))) =>
      if w = v ∧ w2 = w then
        Expr.mul (Expr.ratC (QQ.divQ (QQ.ofInt c) (QQ.ofInt 2)))
          (Expr.add (Expr.mul (Expr.exp (Expr.sym w)) (Expr.sin (Expr.sym w)))
            (Expr.mul (Expr.exp (Expr.sym w)) (Expr.cos (Expr.sym w))))
      else Expr.integralOf e v
  | Expr.mul (Expr.intC c) (Expr.mul (Expr.sin (Expr.sym w)) (Expr.cos (Expr.sym w2))) =>
      if w = v ∧ w2 = w then
        Expr.mul (Expr.ratC (QQ.divQ (QQ.ofInt c) (QQ.ofInt 2)))
          (Expr.pow (Expr.sin (Expr.sym w)) (QQ.ofInt 2))
      else Expr.integralOf e v
  | _ => Expr.integralOf e v

/-- Model of printing an expression with `str` and parsing it back with
`sympy.parse_expr`: structural identity, except that an *undefined*
function named `sin`/`cos` (from `sympy.Function(func_type)` at source
line 164) prints as `sin(...)`/`cos(...)` and therefore re-parses as the
genuine sympy function. -/
def collapse : Expr → Expr
  | Expr.intC n => Expr.intC n
  | Expr.ratC q => Expr.ratC q
  | Expr.sym w => Expr.sym w
  | Expr.add a b => Expr.add (collapse a) (collapse b)
  | Expr.mul a b => Expr.mul (collapse a) (collapse b)
  | Expr.pow a q => Expr.pow (collapse a) q
  | Expr.sin a => Expr.sin (collapse a)
  | Expr.cos a => Expr.cos (collapse a)
  | Expr.exp a => Expr.exp (collapse a)
  | Expr.log a => Expr.log (collapse a)
  | Expr.asin a => Expr.asin (collapse a)
  | Expr.atan a => Expr.atan (collapse a)
  | Expr.ufun f a =>
      if f = "sin" then Expr.sin (collapse a)
      else if f = "cos" then Expr.cos (collapse a)
      else Expr.ufun f (collapse a)
  | Expr.integralOf a w => Expr.integralOf (collapse a) w
  | Expr.dfun f a => Expr.dfun f (collapse a)

/-- Model of a Python string holding either the printed form of a sympy
expression (`Sum.inl`, what `str(expr)` produces — `parse_expr`
round-trips it) or arbitrary text that fails to parse (`Sum.inr`).
The spec directs the symbolic engine to be treated as the capability
interface `{parse, differentiate, simplify}`. -/
abbrev PyStr : Type := Expr ⊕ String

/-- Model of `str(e)` for a sympy expression. -/
def strOf (e : Expr) : PyStr := Sum.inl (collapse e)

/-- Model of `sympy.parse_expr` on a candidate string: the printed form
of an expression parses back to it; junk text raises (`none`). -/
def parseExpr : PyStr → Option Expr
  | Sum.inl e => some e
  | Sum.inr _ => none

/-! ## The dataset (`IntermediateIntegrationDataset`) -/

/-- The metadata mapping of an item record (source lines 237–245). -/
structure IIMetadata where
  integrand : PyStr
  problem_type : String
  var_name : String
  expected_answer_expression : Expr
  difficulty_weights : List ℚ
deriving DecidableEq

/-- An item record (source lines 234–246).  The question string is
modelled as the chosen prompt-template index paired with the printed
integrand (the fixed template text and appended instruction carry no
further information).  `metadata` is `Option`al so that `score_answer`'s
unguarded `entry["metadata"]` dict access can be modelled faithfully. -/
structure IIItem where
  question : Nat × PyStr
  answer : PyStr
  metadata : Option IIMetadata
deriving DecidableEq

/-- Embedding of `IntermediateIntegrationDataset` state: configuration,
resolved base seed, and size. -/
structure IIDataset where
  config : IIConfig
  seed : Int
  size : Int
deriving DecidableEq

/-- Modelled from the spec: `ProceduralDataset.__init__` (the base class
in `reasoning_gym.dataset` is not under `src/`): stores the
configuration, the base seed — `config.seed`, falling back to a
process-derived random value (`entropy`) when unset — and
`size = config.size`. -/
def mkDataset (c : IIConfig) (entropy : Int) : IIDataset :=
  { config := c, seed := c.seed.getD entropy, size := c.size }

/-- `_get_outer_constant` (source lines 82–85). -/
def getOuterConstant (c : IIConfig) (r : PyRandom) : Int × PyRandom :=
  let vr := r.randint c.outer_constant_min c.outer_constant_max
  let opr := vr.2.choice c.operators "+"
  (if opr.1 = "-" then -vr.1 else vr.1, opr.2)

/-- Faithful embedding of `_get_outer_constant` (source lines 82–85):
`rng.choice(self.config.operators)` raises `IndexError` (here `none`)
when the configured `operators` tuple is empty — a configuration that
`validate` nevertheless accepts, since its `all(...)` check is vacuous
on an empty tuple. -/
def getOuterConstantE (c : IIConfig) (r : PyRandom) : Option (Int × PyRandom) :=
  let vr := r.randint c.outer_constant_min c.outer_constant_max
  match vr.2.choiceE c.operators with
  | none => none
  | some opr => some (if opr.1 = "-" then -vr.1 else vr.1, opr.2)

/-- `_generate_linear_substitution_problem` (source lines 87–95). -/
def genLinear (c : IIConfig) (x : Expr) (r : PyRandom) : Expr × PyRandom :=
  let ar := r.randint c.linear_lower_bound c.linear_upper_bound
  let br := ar.2.randint c.linear_lower_bound c.linear_upper_bound
  let opr := br.2.choice c.operators "+"
  let linear_function :=
    Expr.add (Expr.mul (Expr.intC ar.1) x) (Expr.intC (if opr.1 = "+" then br.1 else -br.1))
  let dr := opr.2.randint c.min_linear_degree c.max_linear_degree
  let ocr := getOuterConstant c dr.2
  (Expr.mul (Expr.intC ocr.1) (Expr.pow linear_function (QQ.ofInt dr.1)), ocr.2)

/-- One signed term of `_generate_exponential_substitution`
(source lines 103–107): sign choice then magnitude. -/
def genSignedTerm (c : IIConfig) (r : PyRandom) : Int × PyRandom :=
  let opr := r.choice c.operators "+"
  let mr := opr.2.randint c.linear_lower_bound c.linear_upper_bound
  ((if opr.1 = "-" then -1 else 1) * mr.1, mr.2)

/-- `_generate_exponential_substitution` (source lines 97–116). -/
def genExponential (c : IIConfig) (x : Expr) (r : PyRandom) : Expr × PyRandom :=
  let er := r.choice ["linear", "quadratic"] ""
  if er.1 = "linear" then
    let t0r := genSignedTerm c er.2
    let t1r := genSignedTerm c t0r.2
    let u := Expr.add (Expr.mul (Expr.intC t0r.1) x) (Expr.intC t1r.1)
    let du := Expr.intC t0r.1
    let ocr := getOuterConstant c t1r.2
    (Expr.mul (Expr.mul (Expr.intC ocr.1) du) (Expr.exp u), ocr.2)
  else
    let t0r := genSignedTerm c er.2
    let t1r := genSignedTerm c t0r.2
    let t2r := genSignedTerm c t1r.2
    let u := Expr.add (Expr.add (Expr.mul (Expr.intC t0r.1) (Expr.pow x (QQ.ofInt 2)))
      (Expr.mul (Expr.intC t1r.1) x)) (Expr.intC t2r.1)
    let du := Expr.add (Expr.mul (Expr.intC (2 * t0r.1)) x) (Expr.intC t1r.1)
    let ocr := getOuterConstant c t2r.2
    (Expr.mul (Expr.mul (Expr.intC ocr.1) du) (Expr.exp u), ocr.2)

/-- `_generate_radical_substitution` (source lines 118–133). -/
def genRadical (c : IIConfig) (x : Expr) (r : PyRandom) : Expr × PyRandom :=
  let ar := genSignedTerm c r
  let br := genSignedTerm c ar.2
  let u := Expr.add (Expr.mul (Expr.intC ar.1) x) (Expr.intC br.1)
  let integrand := Expr.mul (Expr.intC ar.1) (Expr.sqrtE u)
  let ocr := getOuterConstant c br.2
  (Expr.mul (Expr.intC ocr.1) integrand, ocr.2)

/-- `_generate_trigonometric_substitution` (source lines 135–153). -/
def genTrig (c : IIConfig) (x : Expr) (r : PyRandom) : Expr × PyRandom :=
  let tfr := r.choice ["sin", "cos"] ""
  let ar := genSignedTerm c tfr.2
  let br := genSignedTerm c ar.2
  let inner := Expr.add (Expr.mul (Expr.intC ar.1) x) (Expr.intC br.1)
  let pr := br.2.randint 1 4
  let integrand :=
    if tfr.1 = "sin" then
      Expr.mul (Expr.mul (Expr.intC ar.1) (Expr.cos inner))
        (Expr.pow (Expr.sin inner) (QQ.ofInt pr.1))
    else
      Expr.mul (Expr.mul (Expr.intC (-ar.1)) (Expr.sin inner))
        (Expr.pow (Expr.cos inner) (QQ.ofInt pr.1))
  let ocr := getOuterConstant c pr.2
  (Expr.mul (Expr.intC ocr.1) integrand, ocr.2)

/-- `_generate_polynomial_exp_trig` (source lines 155–168).  The
`sin`/`cos` branch applies `sympy.Function(func_type)` — an *undefined*
function — to `coefficient * x` (source line 164), embedded as
`Expr.ufun`. -/
def genPolyExpTrig (c : IIConfig) (x : Expr) (r : PyRandom) : Expr × PyRandom :=
  let nr := r.randint c.min_poly_degree c.max_poly_degree
  let ftr := nr.2.choice ["exp", "sin", "cos"] ""
  if ftr.1 = "exp" then
    let transcendental := Expr.exp x
    let ocr := getOuterConstant c ftr.2
    (Expr.mul (Expr.intC ocr.1) (Expr.mul (Expr.pow x (QQ.ofInt nr.1)) transcendental), ocr.2)
  else
    let kr := ftr.2.randint 1 3
    let transcendental := Expr.ufun ftr.1 (Expr.mul (Expr.intC kr.1) x)
    let ocr := getOuterConstant c kr.2
    (Expr.mul (Expr.intC ocr.1) (Expr.mul (Expr.pow x (QQ.ofInt nr.1)) transcendental), ocr.2)

/-- `_generate_log_inverse_trig` (source lines 170–190).  The
`coefficient` is drawn before the branch on `func_type`, exactly as in
the source. -/
def genLogInverseTrig (c : IIConfig) (x : Expr) (r : PyRandom) : Expr × PyRandom :=
  let ftr := r.choice ["log", "asin", "atan"] ""
  let kr := ftr.2.randint 1 3
  if ftr.1 = "log" then
    let pr := kr.2.randfloat
    if pr.1 < 800 then
      let ocr := getOuterConstant c pr.2
      (Expr.mul (Expr.intC ocr.1) (Expr.log x), ocr.2)
    else
      let dr := pr.2.randint 2 3
      let ocr := getOuterConstant c dr.2
      (Expr.mul (Expr.intC ocr.1) (Expr.log (Expr.pow x (QQ.ofInt dr.1))), ocr.2)
  else if ftr.1 = "asin" then
    let ocr := getOuterConstant c kr.2
    (Expr.mul (Expr.intC ocr.1) (Expr.asin (Expr.mul (Expr.intC kr.1) x)), ocr.2)
  else
    let ocr := getOuterConstant c kr.2
    (Expr.mul (Expr.intC ocr.1) (Expr.atan (Expr.mul (Expr.intC kr.1) x)), ocr.2)

/-- `_generate_cyclic_integral` (source lines 192–198). -/
def genCyclic (c : IIConfig) (x : Expr) (r : PyRandom) : Expr × PyRandom :=
  let pr := r.choice
    [(Expr.exp x, Expr.sin x), (Expr.exp x, Expr.cos x), (Expr.sin x, Expr.cos x)]
    (Expr.exp x, Expr.sin x)
  let ocr := getOuterConstant c pr.2
  (Expr.mul (Expr.intC ocr.1) (Expr.mul pr.1.1 pr.1.2), ocr.2)

/-- `_generate_repeated_parts` (source lines 200–205). -/
def genRepeatedParts (c : IIConfig) (x : Expr) (r : PyRandom) : Expr × PyRandom :=
  let nr := r.randint 3 c.max_poly_degree
  let tr := nr.2.choice [Expr.sin x, Expr.cos x, Expr.exp x] (Expr.sin x)
  let ocr := getOuterConstant c tr.2
  (Expr.mul (Expr.intC ocr.1) (Expr.mul (Expr.pow x (QQ.ofInt nr.1)) tr.1), ocr.2)

/-- The `if`/`elif` dispatch on `problem_type` in `__getitem__` (source
lines 213–228).  `none` models the `UnboundLocalError` that an unhandled
problem type would cause at line 230 (`integrand` referenced before
assignment). -/
def dispatchProblemType (c : IIConfig) (ptype : String) (x : Expr) (r : PyRandom) :
    Option (Expr × PyRandom) :=
  if ptype = "linear" then some (genLinear c x r)
  else if ptype = "trigonometric" then some (genTrig c x r)
  else if ptype = "exponential" then some (genExponential c x r)
  else if ptype = "radical" then some (genRadical c x r)
  else if ptype = "log_inverse_trig" then some (genLogInverseTrig c x r)
  else if ptype = "polynomial_exp_trig" then some (genPolyExpTrig c x r)
  else if ptype = "cyclic" then some (genCyclic c x r)
  else if ptype = "repeated_parts" then some (genRepeatedParts c x r)
  else none

/-- `__getitem__` (source lines 207–246): a fresh
`random.Random(self.seed + index)`, a weighted problem-type draw, a
symbol draw, the dispatched generator, `sympy.integrate`, and the item
record.  The answer string is `str(answer) + " + C"`, which re-parses as
`answer + C`. -/
def getItemOpt (ds : IIDataset) (index : Int) : Option IIItem :=
  let r0 := PyRandom.mkGen (ds.seed + index)
  let ptr := r0.choicesOne ds.config.problem_types ""
  let syr := ptr.2.choice ds.config.symbols "x"
  let x := Expr.sym syr.1
  (dispatchProblemType ds.config ptr.1 x syr.2).map (fun p =>
    let answer := integrateE p.1 syr.1
    { question := ((p.2.choice [0, 1, 2] 0).1, strOf p.1)
      answer := Sum.inl (Expr.add (collapse answer) (Expr.sym "C"))
      metadata := some
        { integrand := strOf p.1
          problem_type := ptr.1
          var_name := syr.1
          expected_answer_expression := answer
          difficulty_weights := ds.config.problem_type_weights } })

/-- Modelled from the spec: indexing used as a cyclic iterable — the
base class (not under `src/`) wraps the index modulo `size`. -/
def cyclicGet (ds : IIDataset) (index : Nat) : Option IIItem :=
  getItemOpt ds ((index % ds.size.toNat : Nat) : Int)

/-- Modelled from the spec: strict (non-wrapping) random access — the
base class (not under `src/`) raises `IndexError` for `index ≥ size`. -/
def strictGet (ds : IIDataset) (index : Nat) : Except String (Option IIItem) :=
  if index < ds.size.toNat then .ok (getItemOpt ds index)
  else .error "IndexError"

/-- The integer constant standing at the head of the (flattened) sympy
`Mul` of a generated integrand: every generator returns either
`Mul(const, rest)` or `Mul(Mul(const, du), exp(u))`. -/
def outerConstOf : Expr → Option Int
  | Expr.mul (Expr.intC k) _ => some k
  | Expr.mul (Expr.mul (Expr.intC k) _) _ => some k
  | _ => none

/-! ## Model of `sympy.diff`, `sympy.simplify`, and `score_answer`

The normal form `NF` is a sum of monomials: a rational coefficient times
a product of atoms (raw sub-ASTs: symbols, function applications, or
non-monomial power bases) with rational exponents.  Two expressions with
equal normal forms are symbolically equal; the emptiness check of the
normal form of a difference models `sympy.simplify(a - b) == 0`. -/

/-- Model of `sympy.diff(e, Symbol(v))`: the standard structural rules.
`Derivative` of an undefined function stays unevaluated (`Expr.dfun`);
`diff(Integral(f, v), v) = f`. -/
def diffE (e : Expr) (v : String) : Expr :=
  match e with
  | Expr.intC _ => Expr.intC 0
  | Expr.ratC _ => Expr.intC 0
  | Expr.sym w => if w = v then Expr.intC 1 else Expr.intC 0
  | Expr.add a b => Expr.add (diffE a v) (diffE b v)
  | Expr.mul a b => Expr.add (Expr.mul (diffE a v) b) (Expr.mul a (diffE b v))
  | Expr.pow a q =>
      Expr.mul (Expr.mul (Expr.ratC q) (Expr.pow a (QQ.subQ q (QQ.ofInt 1)))) (diffE a v)
  | Expr.sin a => Expr.mul (Expr.cos a) (diffE a v)
  | Expr.cos a => Expr.mul (Expr.mul (Expr.intC (-1)) (Expr.sin a)) (diffE a v)
  | Expr.exp a => Expr.mul (Expr.exp a) (diffE a v)
  | Expr.log a => Expr.mul (Expr.pow a (QQ.ofInt (-1))) (diffE a v)
  | Expr.asin a => Expr.mul (Expr.pow (oneMinusSq a) ⟨-1, 2⟩) (diffE a v)
  | Expr.atan a => Expr.mul (Expr.pow (onePlusSq a) (QQ.ofInt (-1))) (diffE a v)
  | Expr.ufun f a => Expr.mul (Expr.dfun f a) (diffE a v)
  | Expr.integralOf f w => if w = v then f else Expr.integralOf (diffE f v) w
  | Expr.dfun f a => Expr.dfun f (Expr.dfun f a)

/-- One atom of a monomial: a raw sub-AST and its rational exponent. -/
abbrev AtomPow := Expr × QQ

/-- A monomial: a rational coefficient and its atom-power list. -/
abbrev Mono := QQ × List AtomPow

/-- Sum-of-monomials normal form. -/
abbrev NF := List Mono

/-- Multiply an atom power into a key list, merging exponents of a
syntactically equal atom and dropping exponent zero. -/
def insKey (ks : List AtomPow) (a : Expr) (q : QQ) : List AtomPow :=
  match ks with
  | [] => if q.isZero then [] else [(a, q)]
  | (b, e) :: rest =>
      if a = b then
        if (e.addQ q).isZero then rest else (b, e.addQ q) :: rest
      else (b, e) :: insKey rest a q

/-- Multiply two key lists. -/
def mulKeys (k1 k2 : List AtomPow) : List AtomPow :=
  k2.foldl (fun acc p => insKey acc p.1 p.2) k1

/-- Remove one occurrence of an exact atom power from a key list. -/
def eraseKey (ks : List AtomPow) (a : Expr) (q : QQ) : Option (List AtomPow) :=
  match ks with
  | [] => none
  | (b, e) :: rest =>
      if a = b ∧ q.eqQ e then some rest
      else (eraseKey rest a q).map (fun t => (b, e) :: t)

/-- Key lists are compared as multisets of atom powers. -/
def keysPerm (k1 k2 : List AtomPow) : Bool :=
  match k1 with
  | [] => k2.isEmpty
  | (a, q) :: rest =>
      match eraseKey k2 a q with
      | some k2rest => keysPerm rest k2rest
      | none => false

/-- Add a monomial into a normal form, merging with an equal-keyed
monomial and dropping a vanishing coefficient. -/
def insMono (nf : NF) (c : QQ) (ks : List AtomPow) : NF :=
  if c.isZero then nf
  else
    match nf with
    | [] => [(c, ks)]
    | (c0, k0) :: rest =>
        if keysPerm ks k0 then
          if (c0.addQ c).isZero then rest else (c0.addQ c, k0) :: rest
        else (c0, k0) :: insMono rest c ks

/-- Sum of two normal forms. -/
def addNF (n1 n2 : NF) : NF := n2.foldl (fun acc m => insMono acc m.1 m.2) n1

/-- Product of two normal forms. -/
def mulNF (n1 n2 : NF) : NF :=
  n1.foldl (fun acc m1 =>
    n2.foldl (fun acc2 m2 => insMono acc2 (m1.1.mulQ m2.1) (mulKeys m1.2 m2.2)) acc) []

/-- Power of a normal form: a coefficient-one monomial scales its
exponents; a constant with an integer exponent is computed; everything
else becomes a single atom (the raw base AST) with the given exponent. -/
def powNF (b : Expr) (nf : NF) (q : QQ) : NF :=
  if q.isZero then [(QQ.ofInt 1, [])]
  else
    match nf with
    | [(c, ks)] =>
        if c.eqQ (QQ.ofInt 1) then
          [(QQ.ofInt 1, ks.map (fun p => (p.1, p.2.mulQ q)))]
        else if q.isInt then
          [(c.powInt q.toIntVal, ks.map (fun p => (p.1, p.2.mulQ q)))]
        else [(QQ.ofInt 1, [(b, q)])]
    | _ => [(QQ.ofInt 1, [(b, q)])]

/-- Model of the normalization performed by `sympy.simplify` on this
expression class: expand to a sum of rational-coefficient monomials over
syntactic atoms.  Equal normal forms certify symbolic equality. -/
def atomNF (a : Expr) : NF := [(QQ.ofInt 1, [(a, QQ.ofInt 1)])]

def norm : Expr → NF
  | Expr.intC n => if n == 0 then [] else [(QQ.ofInt n, [])]
  | Expr.ratC q => if q.isZero then [] else [(q, [])]
  | Expr.sym w => atomNF (Expr.sym w)
  | Expr.add a b => addNF (norm a) (norm b)
  | Expr.mul a b => mulNF (norm a) (norm b)
  | Expr.pow a q => powNF a (norm a) q
  | Expr.sin a => atomNF (Expr.sin a)
  | Expr.cos a => atomNF (Expr.cos a)
  | Expr.exp a => atomNF (Expr.exp a)
  | Expr.log a => atomNF (Expr.log a)
  | Expr.asin a => atomNF (Expr.asin a)
  | Expr.atan a => atomNF (Expr.atan a)
  | Expr.ufun f a => atomNF (Expr.ufun f a)
  | Expr.integralOf f w => atomNF (Expr.integralOf f w)
  | Expr.dfun f a => atomNF (Expr.dfun f a)

/-- Python exceptions surfacing from `score_answer`. -/
inductive PyErr where
  | keyError : String → PyErr
deriving DecidableEq, Repr

/-- The body of the `try` block of `score_answer` (source lines 253–264):
parse the candidate, differentiate it, parse the stored integrand, and
compare by simplification.  `none` models an exception inside the
block. -/
def tryScore (s : PyStr) (md : IIMetadata) : Option ℚ :=
  match parseExpr s with
  | none => none
  | some user_expr =>
      let derivative := diffE user_expr md.var_name
      match parseExpr md.integrand with
      | none => none
      | some integrand =>
          some (if (norm (Expr.subE derivative integrand)).isEmpty then 1 else 0)

/-- Shallow embedding of `score_answer` (source lines 248–267).
`entry["metadata"]` is read *outside* the `try`, so a record without
that key raises `KeyError`; inside the guarded block every failure is
caught and mapped to reward `0.0`; a non-string candidate (`none`)
skips the block and scores `0.0`. -/
def score_answer (answer : Option PyStr) (entry : IIItem) : Except PyErr ℚ :=
  match entry.metadata with
  | none => .error (.keyError "metadata")
  | some md =>
      .ok (match answer with
        | none => 0
        | some s =>
            match tryScore s md with
            | some r => r
            | none => 0)

/-- The check `score_answer` performs on an item's own canonical answer:
parse `str(integrate(f)) + " + C"`, differentiate, subtract the parsed
integrand, and test that the normal form vanishes. -/
def canonicalCheck (f : Expr) (v : String) : Bool :=
  (norm (Expr.subE
    (diffE (Expr.add (collapse (integrateE f v)) (Expr.sym "C")) v)
    (collapse f))).isEmpty

/-! ## Theorems -/

theorem PyRandom.randint_mem {r : PyRandom} {a b : Int} (h : a ≤ b) :
    a ≤ (r.randint a b).1 ∧ (r.randint a b).1 ≤ b := by
  have hpos : (0 : Int) < b - a + 1 := by omega
  have hge : (0 : Int) ≤ (r.next.1 : Int) % (b - a + 1) :=
    Int.emod_nonneg _ (by omega)
  have hlt : (r.next.1 : Int) % (b - a + 1) < b - a + 1 :=
    Int.emod_lt_of_pos _ hpos
  show a ≤ a + (r.next.1 : Int) % (b - a + 1) ∧
       a + (r.next.1 : Int) % (b - a + 1) ≤ b
  omega

theorem PyRandom.choice_mem {α : Type} (r : PyRandom) (l : List α) (dflt : α)
    (h : l ≠ []) : (r.choice l dflt).1 ∈ l := by
  unfold PyRandom.choice
  have hlen : 0 < l.length := List.length_pos.mpr h
  have : (r.next.1 % l.length) < l.length := Nat.mod_lt _ hlen
  simp only
  rw [List.getD_eq_getElem l dflt this]
  exact List.getElem_mem this

theorem PyRandom.choicesOne_mem {α : Type} (r : PyRandom) (l : List α) (dflt : α)
    (h : l ≠ []) : (r.choicesOne l dflt).1 ∈ l := by
  unfold PyRandom.choicesOne
  have hlen : 0 < l.length := List.length_pos.mpr h
  have : (r.next.1 % l.length) < l.length := Nat.mod_lt _ hlen
  simp only
  rw [List.getD_eq_getElem l dflt this]
  exact List.getElem_mem this

theorem firstFailure_ok_iff (l : List (Bool × String)) :
    firstFailure l = .ok () ↔ l.all (·.1) = true := by
  unfold firstFailure
  cases hf : l.find? (fun p => !p.1) with
  | none =>
    simp only [List.find?_eq_none, Bool.not_eq_true'] at hf
    simp only [List.all_eq_true]
    constructor
    · intro _ p hp
      have := hf p hp
      simpa using this
    · intro _
      trivial
  | some p =>
    have hmem := List.mem_of_find?_eq_some hf
    have hp := List.find?_some hf
    simp only [Bool.not_eq_true'] at hp
    constructor
    · intro h; exact absurd h (by simp)
    · intro h
      rw [List.all_eq_true] at h
      exact absurd (h p hmem) (by simp [hp])

theorem IIConfig.validate_ok (c : IIConfig) (h : c.validate = .ok ()) :
    c.problem_types.length = c.problem_type_weights.length ∧
    c.size > 0 ∧
    c.linear_lower_bound > 0 ∧
    c.linear_upper_bound ≥ c.linear_lower_bound ∧
    c.min_linear_degree > 0 ∧
    c.max_linear_degree ≥ c.min_linear_degree ∧
    c.outer_constant_min > 0 ∧
    c.outer_constant_max ≥ c.outer_constant_min ∧
    c.min_poly_degree > 0 ∧
    c.max_poly_degree ≥ c.min_poly_degree ∧
    c.operators.all (fun op => op == "+" || op == "-") = true ∧
    c.symbols.all (fun s => s == "x" || s == "X") = true := by
  rw [IIConfig.validate, firstFailure_ok_iff] at h
  simp only [IIConfig.checks, List.all_cons, List.all_nil, Bool.and_eq_true,
    decide_eq_true_eq, beq_iff_eq] at h
  tauto


/-- C5: every configuration violating a stated constraint (non-positive
size, `problem_types`/`problem_type_weights` length mismatch,
non-positive or inverted bounds, an operator outside `{+, -}`, or a
symbol outside `{x, X}`) is rejected by `validate`; in particular
`IntermediateIntegrationConfig(size=0).validate()` raises. -/
theorem c5_validation_gate :
    (∀ c : IIConfig,
      (c.size ≤ 0 ∨
       c.problem_types.length ≠ c.problem_type_weights.length ∨
       c.linear_lower_bound ≤ 0 ∨
       c.linear_upper_bound < c.linear_lower_bound ∨
       c.min_linear_degree ≤ 0 ∨
       c.max_linear_degree < c.min_linear_degree ∨
       c.outer_constant_min ≤ 0 ∨
       c.outer_constant_max < c.outer_constant_min ∨
       c.min_poly_degree ≤ 0 ∨
       c.max_poly_degree < c.min_poly_degree ∨
       (∃ op ∈ c.operators, op ≠ "+" ∧ op ≠ "-") ∨
       (∃ s ∈ c.symbols, s ≠ "x" ∧ s ≠ "X")) →
      c.validate ≠ .ok ()) ∧
    ({ IIConfig.default with size := 0 } : IIConfig).validate =
      .error "size must be positive" := by
  constructor
  · intro c hviol hok
    obtain ⟨h1, h2, h3, h4, h5, h6, h7, h8, h9, h10, h11, h12⟩ :=
      IIConfig.validate_ok c hok
    rcases hviol with h | h | h | h | h | h | h | h | h | h | h | h
    · omega
    · exact h h1
    · omega
    · omega
    · omega
    · omega
    · omega
    · omega
    · omega
    · omega
    · obtain ⟨op, hmem, hne1, hne2⟩ := h
      rw [List.all_eq_true] at h11
      have := h11 op hmem
      simp only [Bool.or_eq_true, beq_iff_eq] at this
      tauto
    · obtain ⟨sy, hmem, hne1, hne2⟩ := h
      rw [List.all_eq_true] at h12
      have := h12 sy hmem
      simp only [Bool.or_eq_true, beq_iff_eq] at this
      tauto
  · rfl

/-- C5 witness: `IntermediateIntegrationConfig(size=0)` violates the
size constraint and `validate` rejects it. -/
theorem c5_validation_gate_witness :
    ({ IIConfig.default with size := 0 } : IIConfig).validate ≠ .ok () :=
  c5_validation_gate.1 { IIConfig.default with size := 0 } (Or.inl (by decide))

/-- C7: `increment_attr_level` / `decrement_attr_level` move the current
level by ±1 clamped to `[0, num_levels-1]`: decrementing at level 0 and
incrementing at the maximum level leave the level unchanged (and raise
nothing — the operations are total); and incrementing
`problem_type_weights` of `IntermediateIntegrationCurriculum` eight
times from the initial state lands exactly on the last valid level
index. -/
theorem c7_level_clamping :
    (∀ c : IICurriculum, c.get_attr_level = 0 → c.decrement_attr_level = c) ∧
    (∀ c : IICurriculum, c.get_attr_level = iiWeightAttr.levels.length - 1 →
      c.increment_attr_level = c) ∧
    (∀ c : IICurriculum, c.get_attr_level < iiWeightAttr.levels.length - 1 →
      c.increment_attr_level.get_attr_level = c.get_attr_level + 1) ∧
    (∀ c : IICurriculum, 0 < c.get_attr_level →
      c.decrement_attr_level.get_attr_level = c.get_attr_level - 1) ∧
    (({} : IICurriculum).increment_attr_level.increment_attr_level.increment_attr_level.increment_attr_level.increment_attr_level.increment_attr_level.increment_attr_level.increment_attr_level.get_attr_level
      = iiWeightAttr.levels.length - 1) := by
  have hlen : iiWeightAttr.levels.length = 8 := rfl
  refine ⟨?_, ?_, ?_, ?_, by decide⟩
  · rintro ⟨lvl⟩ h
    simp only [IICurriculum.get_attr_level] at h
    simp only [IICurriculum.decrement_attr_level, IICurriculum.mk.injEq]
    omega
  · rintro ⟨lvl⟩ h
    simp only [IICurriculum.get_attr_level] at h
    simp only [IICurriculum.increment_attr_level, IICurriculum.mk.injEq]
    omega
  · rintro ⟨lvl⟩ h
    simp only [IICurriculum.get_attr_level] at h ⊢
    simp only [IICurriculum.increment_attr_level]
    omega
  · rintro ⟨lvl⟩ h
    simp only [IICurriculum.get_attr_level] at h ⊢
    simp only [IICurriculum.decrement_attr_level]

/-- C7 witness: decrementing at level 0 is a no-op, incrementing at the
last level (7) is a no-op, and from level 2 incrementing steps to 3. -/
theorem c7_level_clamping_witness :
    (({} : IICurriculum).decrement_attr_level = {}) ∧
    (IICurriculum.mk 7).increment_attr_level = IICurriculum.mk 7 ∧
    (IICurriculum.mk 2).increment_attr_level.get_attr_level = 3 :=
  ⟨c7_level_clamping.1 {} rfl,
   c7_level_clamping.2.1 (IICurriculum.mk 7) (by decide),
   c7_level_clamping.2.2.1 (IICurriculum.mk 2) (by decide)⟩

/-- C8: every curriculum state reachable from the initial state by
increment/decrement steps materializes a configuration that passes
`validate`, and every defined `problem_type_weights` level has the same
length as the default `problem_types` tuple. -/
theorem c8_curriculum_safety :
    (∀ c : IICurriculum, IICurriculum.Reachable c →
      c.materialize.validate = .ok ()) ∧
    iiWeightAttr.levels.all
      (fun l => l.length == IIConfig.default.problem_types.length) = true := by
  constructor
  · intro c hc
    have hlen : iiWeightAttr.levels.length = 8 := rfl
    have h8 : c.level < 8 := by
      induction hc with
      | init => simp
      | inc _ ih =>
        simp only [IICurriculum.increment_attr_level]
        omega
      | dec _ ih =>
        simp only [IICurriculum.decrement_attr_level]
        omega
    unfold IICurriculum.materialize
    interval_cases h : c.level <;> rfl
  · decide

/-- C8 witness: the state reached by one increment from the initial
state is reachable and its materialized configuration validates. -/
theorem c8_curriculum_safety_witness :
    (({} : IICurriculum).increment_attr_level.materialize.validate = .ok ()) :=
  c8_curriculum_safety.1 _ (IICurriculum.Reachable.inc IICurriculum.Reachable.init)


/-- C1: two independently constructed datasets built from equal
configurations and equal explicit seeds produce identical item records
at every index, whatever process-derived entropy each construction saw:
each item is a pure function of `(seed, index, configuration)`. -/
theorem c1_determinism (cfg : IIConfig) (s : Int) (entropy1 entropy2 index : Int) :
    mkDataset { cfg with seed := some s } entropy1 =
      mkDataset { cfg with seed := some s } entropy2 ∧
    getItemOpt (mkDataset { cfg with seed := some s } entropy1) index =
      getItemOpt (mkDataset { cfg with seed := some s } entropy2) index :=
  ⟨rfl, rfl⟩

/-- C6: used as a cyclic iterable, indexing wraps modulo `size` — the
item at `index` equals the item at `index % size` — and an `IndexError`
arises exactly in strict (non-wrapping) random access with
`index ≥ size`. -/
theorem c6_index_wraparound (ds : IIDataset) :
    (∀ index : Nat, cyclicGet ds index = cyclicGet ds (index % ds.size.toNat)) ∧
    (∀ index : Nat, cyclicGet ds index = getItemOpt ds (index % ds.size.toNat)) ∧
    (∀ index : Nat, (strictGet ds index).isOk = true ↔ index < ds.size.toNat) ∧
    (∀ index : Nat, strictGet ds index =
      if index < ds.size.toNat then .ok (getItemOpt ds index) else .error "IndexError") := by
  refine ⟨?_, fun _ => rfl, ?_, fun _ => rfl⟩
  · intro index
    unfold cyclicGet
    congr 2
    exact (Nat.mod_mod_of_dvd index dvd_rfl).symm
  · intro index
    unfold strictGet
    by_cases h : index < ds.size.toNat
    · rw [if_pos h]
      simp [Except.isOk, Except.toBool, h]
    · rw [if_neg h]
      simp [Except.isOk, Except.toBool, h]



theorem outerConstOf_collapse (e : Expr) : outerConstOf (collapse e) = outerConstOf e := by
  cases e <;>
    first
      | rfl
      | (simp only [collapse, outerConstOf]; split_ifs <;> rfl)
      | (rename_i a b
         cases a <;>
           first
             | rfl
             | (simp only [collapse, outerConstOf]; split_ifs <;> rfl)
             | (rename_i a1 a2
                cases a1 <;>
                  first
                    | rfl
                    | (simp only [collapse, outerConstOf]; split_ifs <;> rfl)))

theorem outerConstOf_isSome_ne_const {g : Expr} {k : Int} (h : outerConstOf g = some k) :
    (∀ n : Int, g ≠ Expr.intC n) ∧ (∀ q : QQ, g ≠ Expr.ratC q) := by
  constructor <;> intro v hg <;> subst hg <;> simp [outerConstOf] at h

theorem getOuterConstant_spec (c : IIConfig) (r : PyRandom)
    (h1 : 1 ≤ c.outer_constant_min) (h2 : c.outer_constant_min ≤ c.outer_constant_max) :
    (getOuterConstant c r).1 ≠ 0 ∧
    c.outer_constant_min ≤ |(getOuterConstant c r).1| ∧
    |(getOuterConstant c r).1| ≤ c.outer_constant_max := by
  obtain ⟨hlo, hhi⟩ := PyRandom.randint_mem (r := r)
    (a := c.outer_constant_min) (b := c.outer_constant_max) h2
  unfold getOuterConstant
  set v := (r.randint c.outer_constant_min c.outer_constant_max).1 with hv
  have h1v : 1 ≤ v := le_trans h1 hlo
  by_cases hop :
      ((r.randint c.outer_constant_min c.outer_constant_max).2.choice c.operators "+").1 = "-"
  · simp only [hop, if_pos]
    rw [abs_neg, abs_of_nonneg (by omega)]
    exact ⟨by omega, hlo, hhi⟩
  · simp only [hop, if_neg, ite_false]
    rw [abs_of_nonneg (by omega)]
    exact ⟨by omega, hlo, hhi⟩

theorem genLinear_outer (c : IIConfig) (x : Expr) (r : PyRandom)
    (h1 : 1 ≤ c.outer_constant_min) (h2 : c.outer_constant_min ≤ c.outer_constant_max) :
    ∃ k, outerConstOf (genLinear c x r).1 = some k ∧ k ≠ 0 ∧
      c.outer_constant_min ≤ |k| ∧ |k| ≤ c.outer_constant_max :=
  ⟨_, rfl, getOuterConstant_spec c _ h1 h2⟩

theorem genExponential_outer (c : IIConfig) (x : Expr) (r : PyRandom)
    (h1 : 1 ≤ c.outer_constant_min) (h2 : c.outer_constant_min ≤ c.outer_constant_max) :
    ∃ k, outerConstOf (genExponential c x r).1 = some k ∧ k ≠ 0 ∧
      c.outer_constant_min ≤ |k| ∧ |k| ≤ c.outer_constant_max := by
  unfold genExponential
  dsimp only
  split_ifs
  · exact ⟨_, rfl, getOuterConstant_spec c _ h1 h2⟩
  · exact ⟨_, rfl, getOuterConstant_spec c _ h1 h2⟩

theorem genRadical_outer (c : IIConfig) (x : Expr) (r : PyRandom)
    (h1 : 1 ≤ c.outer_constant_min) (h2 : c.outer_constant_min ≤ c.outer_constant_max) :
    ∃ k, outerConstOf (genRadical c x r).1 = some k ∧ k ≠ 0 ∧
      c.outer_constant_min ≤ |k| ∧ |k| ≤ c.outer_constant_max :=
  ⟨_, rfl, getOuterConstant_spec c _ h1 h2⟩

theorem genTrig_outer (c : IIConfig) (x : Expr) (r : PyRandom)
    (h1 : 1 ≤ c.outer_constant_min) (h2 : c.outer_constant_min ≤ c.outer_constant_max) :
    ∃ k, outerConstOf (genTrig c x r).1 = some k ∧ k ≠ 0 ∧
      c.outer_constant_min ≤ |k| ∧ |k| ≤ c.outer_constant_max :=
  ⟨_, rfl, getOuterConstant_spec c _ h1 h2⟩

theorem genPolyExpTrig_outer (c : IIConfig) (x : Expr) (r : PyRandom)
    (h1 : 1 ≤ c.outer_constant_min) (h2 : c.outer_constant_min ≤ c.outer_constant_max) :
    ∃ k, outerConstOf (genPolyExpTrig c x r).1 = some k ∧ k ≠ 0 ∧
      c.outer_constant_min ≤ |k| ∧ |k| ≤ c.outer_constant_max := by
  unfold genPolyExpTrig
  dsimp only
  split_ifs
  · exact ⟨_, rfl, getOuterConstant_spec c _ h1 h2⟩
  · exact ⟨_, rfl, getOuterConstant_spec c _ h1 h2⟩

theorem genLogInverseTrig_outer (c : IIConfig) (x : Expr) (r : PyRandom)
    (h1 : 1 ≤ c.outer_constant_min) (h2 : c.outer_constant_min ≤ c.outer_constant_max) :
    ∃ k, outerConstOf (genLogInverseTrig c x r).1 = some k ∧ k ≠ 0 ∧
      c.outer_constant_min ≤ |k| ∧ |k| ≤ c.outer_constant_max := by
  unfold genLogInverseTrig
  dsimp only
  split_ifs
  · exact ⟨_, rfl, getOuterConstant_spec c _ h1 h2⟩
  · exact ⟨_, rfl, getOuterConstant_spec c _ h1 h2⟩
  · exact ⟨_, rfl, getOuterConstant_spec c _ h1 h2⟩
  · exact ⟨_, rfl, getOuterConstant_spec c _ h1 h2⟩

theorem genCyclic_outer (c : IIConfig) (x : Expr) (r : PyRandom)
    (h1 : 1 ≤ c.outer_constant_min) (h2 : c.outer_constant_min ≤ c.outer_constant_max) :
    ∃ k, outerConstOf (genCyclic c x r).1 = some k ∧ k ≠ 0 ∧
      c.outer_constant_min ≤ |k| ∧ |k| ≤ c.outer_constant_max :=
  ⟨_, rfl, getOuterConstant_spec c _ h1 h2⟩

theorem genRepeatedParts_outer (c : IIConfig) (x : Expr) (r : PyRandom)
    (h1 : 1 ≤ c.outer_constant_min) (h2 : c.outer_constant_min ≤ c.outer_constant_max) :
    ∃ k, outerConstOf (genRepeatedParts c x r).1 = some k ∧ k ≠ 0 ∧
      c.outer_constant_min ≤ |k| ∧ |k| ≤ c.outer_constant_max :=
  ⟨_, rfl, getOuterConstant_spec c _ h1 h2⟩

theorem dispatch_outer (c : IIConfig) (pt : String) (x : Expr) (r : PyRandom)
    (pr : Expr × PyRandom)
    (h1 : 1 ≤ c.outer_constant_min) (h2 : c.outer_constant_min ≤ c.outer_constant_max)
    (hd : dispatchProblemType c pt x r = some pr) :
    ∃ k, outerConstOf pr.1 = some k ∧ k ≠ 0 ∧
      c.outer_constant_min ≤ |k| ∧ |k| ≤ c.outer_constant_max := by
  unfold dispatchProblemType at hd
  split_ifs at hd
  · obtain rfl : pr = _ := (Option.some.inj hd).symm
    exact genLinear_outer c x r h1 h2
  · obtain rfl : pr = _ := (Option.some.inj hd).symm
    exact genTrig_outer c x r h1 h2
  · obtain rfl : pr = _ := (Option.some.inj hd).symm
    exact genExponential_outer c x r h1 h2
  · obtain rfl : pr = _ := (Option.some.inj hd).symm
    exact genRadical_outer c x r h1 h2
  · obtain rfl : pr = _ := (Option.some.inj hd).symm
    exact genLogInverseTrig_outer c x r h1 h2
  · obtain rfl : pr = _ := (Option.some.inj hd).symm
    exact genPolyExpTrig_outer c x r h1 h2
  · obtain rfl : pr = _ := (Option.some.inj hd).symm
    exact genCyclic_outer c x r h1 h2
  · obtain rfl : pr = _ := (Option.some.inj hd).symm
    exact genRepeatedParts_outer c x r h1 h2

theorem isSome_map_opt {α β : Type} (f : α → β) (o : Option α) :
    (o.map f).isSome = o.isSome := by
  cases o <;> rfl

theorem dispatch_default_isSome (c : IIConfig) (pt : String) (x : Expr) (r : PyRandom)
    (h : pt ∈ IIConfig.default.problem_types) :
    (dispatchProblemType c pt x r).isSome = true := by
  fin_cases h <;> rfl

/-- C9: with the default eight problem types, the `if`/`elif` dispatch in
`__getitem__` handles every problem type that can be drawn, so the item
is always produced (`integrand` is always assigned; the
`UnboundLocalError` path is unreachable); and `validate` itself places
no constraint on the *contents* of `problem_types` (a config whose only
problem type is the unhandled string `"bogus"` still validates). -/
theorem c9_dispatch_exhaustive :
    (∀ (ds : IIDataset) (index : Int),
      ds.config.problem_types = IIConfig.default.problem_types →
      (getItemOpt ds index).isSome = true) ∧
    ({ IIConfig.default with
        problem_types := ["bogus"],
        problem_type_weights := [1] } : IIConfig).validate = .ok () := by
  constructor
  · intro ds index hpt
    unfold getItemOpt
    rw [isSome_map_opt]
    apply dispatch_default_isSome
    rw [← hpt]
    apply PyRandom.choicesOne_mem
    rw [hpt]
    simp [IIConfig.default]
  · rfl

/-- C9 witness: a dataset over the default configuration (which has the
default problem types) produces an item at index 0. -/
theorem c9_dispatch_exhaustive_witness :
    (getItemOpt (mkDataset IIConfig.default 0) 0).isSome = true :=
  c9_dispatch_exhaustive.1 (mkDataset IIConfig.default 0) 0 rfl

theorem PyRandom.choiceE_eq {α : Type} (r : PyRandom) (l : List α) (dflt : α)
    (h : l ≠ []) : r.choiceE l = some (r.choice l dflt) := by
  cases l with
  | nil => exact absurd rfl h
  | cons a t =>
      have hlt : r.next.1 % (a :: t).length < (a :: t).length :=
        Nat.mod_lt _ (by simp)
      unfold PyRandom.choiceE PyRandom.choice
      simp only
      rw [List.getD_eq_getElem _ a hlt, List.getD_eq_getElem _ dflt hlt]

theorem getOuterConstantE_eq (c : IIConfig) (r : PyRandom) (h : c.operators ≠ []) :
    getOuterConstantE c r = some (getOuterConstant c r) := by
  simp only [getOuterConstantE, getOuterConstant]
  rw [PyRandom.choiceE_eq _ _ "+" h]

/-- C10 counterexample: the configuration with `operators = ()` passes
`validate` — its `all(...)` assert is vacuously true on an empty tuple —
yet `_get_outer_constant` then does not return a value at all: it raises
`IndexError` at `rng.choice(self.config.operators)` (faithfully modelled
by `getOuterConstantE` returning `none`).  The claim's universal
quantification over every validated configuration therefore fails. -/
theorem c10_counterexample :
    ({ IIConfig.default with operators := [] } : IIConfig).validate = .ok () ∧
    getOuterConstantE { IIConfig.default with operators := [] } (PyRandom.mkGen 0) =
      none :=
  ⟨rfl, rfl⟩

/-- C10 (amended): for every configuration passing `validate` whose
`operators` tuple is non-empty (as in the default `("+", "-")`),
`_get_outer_constant` returns — rather than raising — a nonzero integer
whose absolute value lies in `[outer_constant_min, outer_constant_max]`;
and the integrand of every generated item is a product headed by such a
nonzero constant, never the zero expression. -/
theorem c10_outer_constant_amended :
    (∀ (c : IIConfig) (r : PyRandom), c.validate = .ok () → c.operators ≠ [] →
      ∃ (k : Int) (r2 : PyRandom),
        getOuterConstantE c r = some (k, r2) ∧
        k ≠ 0 ∧ c.outer_constant_min ≤ |k| ∧ |k| ≤ c.outer_constant_max) ∧
    (∀ (ds : IIDataset) (index : Int) (item : IIItem) (md : IIMetadata),
      ds.config.validate = .ok () →
      getItemOpt ds index = some item → item.metadata = some md →
      ∃ (k : Int) (g : Expr), md.integrand = Sum.inl g ∧ outerConstOf g = some k ∧
        k ≠ 0 ∧ ds.config.outer_constant_min ≤ |k| ∧ |k| ≤ ds.config.outer_constant_max ∧
        (∀ n : Int, g ≠ Expr.intC n) ∧ (∀ q : QQ, g ≠ Expr.ratC q)) := by
  constructor
  · intro c r hval hop
    obtain ⟨_, _, _, _, _, _, h7, h8, _, _, _, _⟩ := IIConfig.validate_ok c hval
    obtain ⟨hne, hlo, hhi⟩ := getOuterConstant_spec c r (by omega) h8
    exact ⟨(getOuterConstant c r).1, (getOuterConstant c r).2,
      by rw [getOuterConstantE_eq c r hop], hne, hlo, hhi⟩
  · intro ds index item md hval hitem hmd
    obtain ⟨_, _, _, _, _, _, h7, h8, _, _, _, _⟩ := IIConfig.validate_ok _ hval
    unfold getItemOpt at hitem
    rw [Option.map_eq_some'] at hitem
    obtain ⟨pr, hd, hf⟩ := hitem
    obtain ⟨k, hk, hk0, hkl, hku⟩ :=
      dispatch_outer ds.config _ _ _ pr (by omega) h8 hd
    subst hf
    simp only at hmd
    obtain rfl : _ = md := Option.some.inj hmd
    refine ⟨k, collapse pr.1, rfl, ?_, hk0, hkl, hku, ?_, ?_⟩
    · rw [outerConstOf_collapse]
      exact hk
    · exact (outerConstOf_isSome_ne_const (by rw [outerConstOf_collapse]; exact hk)).1
    · exact (outerConstOf_isSome_ne_const (by rw [outerConstOf_collapse]; exact hk)).2

/-- C10 witness: over the default configuration (whose `operators` is
the non-empty `("+", "-")`), the faithful `_get_outer_constant` returns
a value from a fresh generator, nonzero with absolute value in
`[1, 3]`. -/
theorem c10_outer_constant_amended_witness :
    ∃ (k : Int) (r2 : PyRandom),
      getOuterConstantE IIConfig.default (PyRandom.mkGen 0) = some (k, r2) ∧
      k ≠ 0 ∧ IIConfig.default.outer_constant_min ≤ |k| ∧
      |k| ≤ IIConfig.default.outer_constant_max :=
  c10_outer_constant_amended.1 IIConfig.default (PyRandom.mkGen 0) rfl (by decide)


/-- C2: on any item record (an entry carrying metadata), `score_answer`
never raises: it always returns `Except.ok`; a `None` candidate scores
`0.0`, and an unparseable string (a caught parse failure) scores
`0.0`. -/
theorem c2_score_total (answer : Option PyStr) (entry : IIItem) (md : IIMetadata)
    (hmd : entry.metadata = some md) :
    (∃ r : ℚ, score_answer answer entry = .ok r) ∧
    (answer = none → score_answer answer entry = .ok 0) ∧
    (∀ junk : String, answer = some (Sum.inr junk) → score_answer answer entry = .ok 0) := by
  unfold score_answer
  rw [hmd]
  refine ⟨⟨_, rfl⟩, ?_, ?_⟩
  · rintro rfl
    rfl
  · rintro junk rfl
    rfl

/-- C2 witness: on a concrete item record, `None` scores `ok 0`. -/
theorem c2_score_total_witness :
    score_answer none
      ⟨(0, Sum.inr "q"), Sum.inr "a",
        some ⟨Sum.inl (Expr.sym "x"), "linear", "x", Expr.intC 0, []⟩⟩ = .ok 0 :=
  (c2_score_total none _ _ rfl).2.1 rfl


/-- C4 counterexample: on the concrete item at index 3 of the dataset
with seed 42 (a `radical` problem), the structurally well-formed but
numerically wrong candidate `"x"` — which parses and differentiates
fine — receives reward exactly `0.0`, not a low non-zero partial-credit
value: it is indistinguishable from the malformed candidate, which also
receives `0.0`. -/
theorem c4_counterexample :
    (getItemOpt (mkDataset { IIConfig.default with seed := some 42 } 0) 3).map
        (fun item => score_answer (some (Sum.inl (Expr.sym "x"))) item) =
      some (.ok 0) ∧
    (getItemOpt (mkDataset { IIConfig.default with seed := some 42 } 0) 3).map
        (fun item => score_answer (some (Sum.inr "not a valid expression $$$")) item) =
      some (.ok 0) :=
  ⟨rfl, rfl⟩

/-- C4 (amended): `score_answer` awards no partial credit — every
returned reward is exactly `0.0` or `1.0`, and a structurally
well-formed but numerically wrong candidate (one that parses but whose
derivative does not simplify to the stored integrand) receives `0.0`,
the same reward as a malformed answer. -/
theorem c4_no_partial_credit :
    (∀ (ans : Option PyStr) (entry : IIItem) (r : ℚ),
      score_answer ans entry = .ok r → r = 0 ∨ r = 1) ∧
    (∀ (e : Expr) (entry : IIItem) (md : IIMetadata) (g : Expr),
      entry.metadata = some md → parseExpr md.integrand = some g →
      (norm (Expr.subE (diffE e md.var_name) g)).isEmpty = false →
      score_answer (some (Sum.inl e)) entry = .ok 0) := by
  constructor
  · intro ans entry r h
    unfold score_answer at h
    cases hmd : entry.metadata with
    | none => rw [hmd] at h; cases h
    | some md =>
      rw [hmd] at h
      have h2 := Except.ok.inj h
      cases ans with
      | none => left; exact h2.symm
      | some str =>
        simp only at h2
        cases hts : tryScore str md with
        | none =>
          rw [hts] at h2
          left
          exact h2.symm
        | some rr =>
          rw [hts] at h2
          unfold tryScore at hts
          cases hp : parseExpr str with
          | none => rw [hp] at hts; cases hts
          | some u =>
            rw [hp] at hts
            cases hpi : parseExpr md.integrand with
            | none => rw [hpi] at hts; cases hts
            | some g =>
              rw [hpi] at hts
              have h3 := Option.some.inj hts
              by_cases hz :
                  (norm (Expr.subE (diffE u md.var_name) g)).isEmpty = true
              · right
                rw [if_pos hz] at h3
                rw [← h2, ← h3]
              · left
                rw [if_neg hz] at h3
                rw [← h2, ← h3]
  · intro e entry md g hmd hpi hz
    cases hmi : md.integrand with
    | inr junk =>
      rw [hmi] at hpi
      cases hpi
    | inl g2 =>
      rw [hmi] at hpi
      simp only [parseExpr, Option.some.injEq] at hpi
      subst hpi
      have hts : tryScore (Sum.inl e) md = some 0 := by
        unfold tryScore
        simp only [parseExpr, hmi, hz]
        rfl
      unfold score_answer
      rw [hmd]
      simp only [hts]

/-- C4 amended witness: on a concrete record whose integrand is `x`, the
well-formed wrong candidate `x` parses, its derivative `1` does not
match the integrand, and the reward is exactly `0`. -/
theorem c4_no_partial_credit_witness :
    score_answer (some (Sum.inl (Expr.sym "x")))
      ⟨(0, Sum.inr "q"), Sum.inr "a",
        some ⟨Sum.inl (Expr.sym "x"), "linear", "x", Expr.intC 0, []⟩⟩ = .ok 0 :=
  c4_no_partial_credit.2 (Expr.sym "x") _ _ (Expr.sym "x") rfl rfl (by decide)


theorem check_cyclic_sc (v : String) (hv : v ≠ "C") (c : Int) (hc : c ≠ 0) :
    canonicalCheck
      (Expr.mul (Expr.intC c) (Expr.mul (Expr.sin (Expr.sym v)) (Expr.cos (Expr.sym v)))) v
      = true := by
  have h1 : integrateE
      (Expr.mul (Expr.intC c) (Expr.mul (Expr.sin (Expr.sym v)) (Expr.cos (Expr.sym v)))) v
      = Expr.mul (Expr.ratC (QQ.divQ (QQ.ofInt c) (QQ.ofInt 2)))
          (Expr.pow (Expr.sin (Expr.sym v)) (QQ.ofInt 2)) := by
    unfold integrateE
    simp
  have hv2 : ("C" = v) = False := by simp [Ne.symm hv]
  simp [canonicalCheck, h1, collapse, diffE, Expr.subE, norm, atomNF, addNF,
    mulNF, powNF, insMono, insKey, mulKeys, keysPerm, eraseKey, QQ.addQ, QQ.mulQ, QQ.negQ,
    QQ.subQ, QQ.divQ, QQ.invQ, QQ.ofInt, QQ.isZero, QQ.eqQ, QQ.isInt, QQ.toIntVal,
    QQ.powNat, QQ.powInt, hc, hv2]

theorem check_cyclic_es (v : String) (hv : v ≠ "C") (c : Int) (hc : c ≠ 0) :
    canonicalCheck
      (Expr.mul (Expr.intC c) (Expr.mul (Expr.exp (Expr.sym v)) (Expr.sin (Expr.sym v)))) v
      = true := by
  have h1 : integrateE
      (Expr.mul (Expr.intC c) (Expr.mul (Expr.exp (Expr.sym v)) (Expr.sin (Expr.sym v)))) v
      = Expr.mul (Expr.ratC (QQ.divQ (QQ.ofInt c) (QQ.ofInt 2)))
          (Expr.subE (Expr.mul (Expr.exp (Expr.sym v)) (Expr.sin (Expr.sym v)))
            (Expr.mul (Expr.exp (Expr.sym v)) (Expr.cos (Expr.sym v)))) := by
    unfold integrateE
    simp
  have hv2 : ("C" = v) = False := by simp [Ne.symm hv]
  simp [canonicalCheck, h1, collapse, diffE, Expr.subE, norm, atomNF, addNF,
    mulNF, powNF, insMono, insKey, mulKeys, keysPerm, eraseKey, QQ.addQ, QQ.mulQ, QQ.negQ,
    QQ.subQ, QQ.divQ, QQ.invQ, QQ.ofInt, QQ.isZero, QQ.eqQ, QQ.isInt, QQ.toIntVal,
    QQ.powNat, QQ.powInt, hc, hv2]

theorem check_cyclic_ec (v : String) (hv : v ≠ "C") (c : Int) (hc : c ≠ 0) :
    canonicalCheck
      (Expr.mul (Expr.intC c) (Expr.mul (Expr.exp (Expr.sym v)) (Expr.cos (Expr.sym v)))) v
      = true := by
  have h1 : integrateE
      (Expr.mul (Expr.intC c) (Expr.mul (Expr.exp (Expr.sym v)) (Expr.cos (Expr.sym v)))) v
      = Expr.mul (Expr.ratC (QQ.divQ (QQ.ofInt c) (QQ.ofInt 2)))
          (Expr.add (Expr.mul (Expr.exp (Expr.sym v)) (Expr.sin (Expr.sym v)))
            (Expr.mul (Expr.exp (Expr.sym v)) (Expr.cos (Expr.sym v)))) := by
    unfold integrateE
    simp
  have hv2 : ("C" = v) = False := by simp [Ne.symm hv]
  simp [canonicalCheck, h1, collapse, diffE, Expr.subE, norm, atomNF, addNF,
    mulNF, powNF, insMono, insKey, mulKeys, keysPerm, eraseKey, QQ.addQ, QQ.mulQ, QQ.negQ,
    QQ.subQ, QQ.divQ, QQ.invQ, QQ.ofInt, QQ.isZero, QQ.eqQ, QQ.isInt, QQ.toIntVal,
    QQ.powNat, QQ.powInt, hc, hv2]

theorem check_linear (v : String) (hv : v ≠ "C") (c a b d : Int)
    (hc : c ≠ 0) (ha : a ≠ 0) (hb : b ≠ 0) (hd : 1 ≤ d) :
    canonicalCheck
      (Expr.mul (Expr.intC c)
        (Expr.pow (Expr.add (Expr.mul (Expr.intC a) (Expr.sym v)) (Expr.intC b))
          (QQ.ofInt d))) v = true := by
  have hd0 : d ≠ 0 := by omega
  have hd1 : d + 1 ≠ 0 := by omega
  have h1 : integrateE
      (Expr.mul (Expr.intC c)
        (Expr.pow (Expr.add (Expr.mul (Expr.intC a) (Expr.sym v)) (Expr.intC b))
          (QQ.ofInt d))) v
      = Expr.mul (Expr.ratC (QQ.divQ (QQ.ofInt c)
            (QQ.mulQ (QQ.ofInt a) (QQ.addQ (QQ.ofInt d) (QQ.ofInt 1)))))
          (Expr.pow (Expr.add (Expr.mul (Expr.intC a) (Expr.sym v)) (Expr.intC b))
            (QQ.addQ (QQ.ofInt d) (QQ.ofInt 1))) := by
    unfold integrateE
    simp
  have hv2 : ("C" = v) = False := by simp [Ne.symm hv]
  simp [canonicalCheck, h1, collapse, diffE, Expr.subE, norm, atomNF, addNF,
    mulNF, powNF, insMono, insKey, mulKeys, keysPerm, eraseKey, QQ.addQ, QQ.mulQ, QQ.negQ,
    QQ.subQ, QQ.divQ, QQ.invQ, QQ.ofInt, QQ.isZero, QQ.eqQ, QQ.isInt, QQ.toIntVal,
    QQ.powNat, QQ.powInt, hc, ha, hb, hd0, hd1, hv2]
  try ring

theorem check_radical (v : String) (hv : v ≠ "C") (c a b : Int)
    (hc : c ≠ 0) (ha : a ≠ 0) (hb : b ≠ 0) :
    canonicalCheck
      (Expr.mul (Expr.intC c)
        (Expr.mul (Expr.intC a)
          (Expr.pow (Expr.add (Expr.mul (Expr.intC a) (Expr.sym v)) (Expr.intC b)) ⟨1, 2⟩)))
      v = true := by
  have h1 : integrateE
      (Expr.mul (Expr.intC c)
        (Expr.mul (Expr.intC a)
          (Expr.pow (Expr.add (Expr.mul (Expr.intC a) (Expr.sym v)) (Expr.intC b)) ⟨1, 2⟩))) v
      = Expr.mul (Expr.ratC (QQ.divQ (QQ.ofInt (c * a))
            (QQ.mulQ (QQ.ofInt a) (QQ.addQ ⟨1, 2⟩ (QQ.ofInt 1)))))
          (Expr.pow (Expr.add (Expr.mul (Expr.intC a) (Expr.sym v)) (Expr.intC b))
            (QQ.addQ ⟨1, 2⟩ (QQ.ofInt 1))) := by
    unfold integrateE
    simp
  have hv2 : ("C" = v) = False := by simp [Ne.symm hv]
  simp [canonicalCheck, h1, collapse, diffE, Expr.subE, norm, atomNF, addNF,
    mulNF, powNF, insMono, insKey, mulKeys, keysPerm, eraseKey, QQ.addQ, QQ.mulQ, QQ.negQ,
    QQ.subQ, QQ.divQ, QQ.invQ, QQ.ofInt, QQ.isZero, QQ.eqQ, QQ.isInt, QQ.toIntVal,
    QQ.powNat, QQ.powInt, hc, ha, hb, hv2]
  try ring

theorem check_trig_sin (v : String) (hv : v ≠ "C") (c k a b p : Int)
    (hc : c ≠ 0) (hk : k ≠ 0) (ha : a ≠ 0) (hb : b ≠ 0) (hp : 1 ≤ p) :
    canonicalCheck
      (Expr.mul (Expr.intC c)
        (Expr.mul
          (Expr.mul (Expr.intC k)
            (Expr.cos (Expr.add (Expr.mul (Expr.intC a) (Expr.sym v)) (Expr.intC b))))
          (Expr.pow (Expr.sin (Expr.add (Expr.mul (Expr.intC a) (Expr.sym v)) (Expr.intC b)))
            (QQ.ofInt p)))) v = true := by
  have hp0 : p ≠ 0 := by omega
  have hp1 : p + 1 ≠ 0 := by omega
  have h1 : integrateE
      (Expr.mul (Expr.intC c)
        (Expr.mul
          (Expr.mul (Expr.intC k)
            (Expr.cos (Expr.add (Expr.mul (Expr.intC a) (Expr.sym v)) (Expr.intC b))))
          (Expr.pow (Expr.sin (Expr.add (Expr.mul (Expr.intC a) (Expr.sym v)) (Expr.intC b)))
            (QQ.ofInt p)))) v
      = Expr.mul (Expr.ratC (QQ.divQ (QQ.ofInt (c * k))
            (QQ.mulQ (QQ.ofInt a) (QQ.addQ (QQ.ofInt p) (QQ.ofInt 1)))))
          (Expr.pow (Expr.sin (Expr.add (Expr.mul (Expr.intC a) (Expr.sym v)) (Expr.intC b)))
            (QQ.addQ (QQ.ofInt p) (QQ.ofInt 1))) := by
    unfold integrateE
    simp
  have hv2 : ("C" = v) = False := by simp [Ne.symm hv]
  simp [canonicalCheck, h1, collapse, diffE, Expr.subE, norm, atomNF, addNF,
    mulNF, powNF, insMono, insKey, mulKeys, keysPerm, eraseKey, QQ.addQ, QQ.mulQ, QQ.negQ,
    QQ.subQ, QQ.divQ, QQ.invQ, QQ.ofInt, QQ.isZero, QQ.eqQ, QQ.isInt, QQ.toIntVal,
    QQ.powNat, QQ.powInt, hc, hk, ha, hb, hp0, hp1, hv2]
  try ring

theorem check_trig_cos (v : String) (hv : v ≠ "C") (c k a b p : Int)
    (hc : c ≠ 0) (hk : k ≠ 0) (ha : a ≠ 0) (hb : b ≠ 0) (hp : 1 ≤ p) :
    canonicalCheck
      (Expr.mul (Expr.intC c)
        (Expr.mul
          (Expr.mul (Expr.intC k)
            (Expr.sin (Expr.add (Expr.mul (Expr.intC a) (Expr.sym v)) (Expr.intC b))))
          (Expr.pow (Expr.cos (Expr.add (Expr.mul (Expr.intC a) (Expr.sym v)) (Expr.intC b)))
            (QQ.ofInt p)))) v = true := by
  have hp0 : p ≠ 0 := by omega
  have hp1 : p + 1 ≠ 0 := by omega
  have h1 : integrateE
      (Expr.mul (Expr.intC c)
        (Expr.mul
          (Expr.mul (Expr.intC k)
            (Expr.sin (Expr.add (Expr.mul (Expr.intC a) (Expr.sym v)) (Expr.intC b))))
          (Expr.pow (Expr.cos (Expr.add (Expr.mul (Expr.intC a) (Expr.sym v)) (Expr.intC b)))
            (QQ.ofInt p)))) v
      = Expr.mul (Expr.ratC (QQ.divQ (QQ.ofInt (-(c * k)))
            (QQ.mulQ (QQ.ofInt a) (QQ.addQ (QQ.ofInt p) (QQ.ofInt 1)))))
          (Expr.pow (Expr.cos (Expr.add (Expr.mul (Expr.intC a) (Expr.sym v)) (Expr.intC b)))
            (QQ.addQ (QQ.ofInt p) (QQ.ofInt 1))) := by
    unfold integrateE
    simp
  have hv2 : ("C" = v) = False := by simp [Ne.symm hv]
  simp [canonicalCheck, h1, collapse, diffE, Expr.subE, norm, atomNF, addNF,
    mulNF, powNF, insMono, insKey, mulKeys, keysPerm, eraseKey, QQ.addQ, QQ.mulQ, QQ.negQ,
    QQ.subQ, QQ.divQ, QQ.invQ, QQ.ofInt, QQ.isZero, QQ.eqQ, QQ.isInt, QQ.toIntVal,
    QQ.powNat, QQ.powInt, hc, hk, ha, hb, hp0, hp1, hv2]
  try ring


theorem check_exponential_linear (v : String) (hv : v ≠ "C") (c t0 t1 : Int)
    (hc : c ≠ 0) (ht0 : t0 ≠ 0) :
    canonicalCheck
      (Expr.mul (Expr.mul (Expr.intC c) (Expr.intC t0))
        (Expr.exp (Expr.add (Expr.mul (Expr.intC t0) (Expr.sym v)) (Expr.intC t1)))) v
      = true := by
  have h1 : integrateE
      (Expr.mul (Expr.mul (Expr.intC c) (Expr.intC t0))
        (Expr.exp (Expr.add (Expr.mul (Expr.intC t0) (Expr.sym v)) (Expr.intC t1)))) v
      = Expr.mul (Expr.ratC (QQ.divQ (QQ.ofInt (c * t0)) (QQ.ofInt t0)))
          (Expr.exp (Expr.add (Expr.mul (Expr.intC t0) (Expr.sym v)) (Expr.intC t1))) := by
    unfold integrateE
    simp
  have hv2 : ("C" = v) = False := by simp [Ne.symm hv]
  simp [canonicalCheck, h1, collapse, diffE, Expr.subE, norm, atomNF, addNF,
    mulNF, powNF, insMono, insKey, mulKeys, keysPerm, eraseKey, QQ.addQ, QQ.mulQ, QQ.negQ,
    QQ.subQ, QQ.divQ, QQ.invQ, QQ.ofInt, QQ.isZero, QQ.eqQ, QQ.isInt, QQ.toIntVal,
    QQ.powNat, QQ.powInt, hc, ht0, hv2]
  try ring

theorem check_exponential_quadratic (v : String) (hv : v ≠ "C") (c t0 t1 t2 : Int)
    (hc : c ≠ 0) (ht0 : t0 ≠ 0) (ht1 : t1 ≠ 0) :
    canonicalCheck
      (Expr.mul
        (Expr.mul (Expr.intC c)
          (Expr.add (Expr.mul (Expr.intC (2 * t0)) (Expr.sym v)) (Expr.intC t1)))
        (Expr.exp
          (Expr.add
            (Expr.add (Expr.mul (Expr.intC t0) (Expr.pow (Expr.sym v) (QQ.ofInt 2)))
              (Expr.mul (Expr.intC t1) (Expr.sym v)))
            (Expr.intC t2)))) v = true := by
  have h1 : integrateE
      (Expr.mul
        (Expr.mul (Expr.intC c)
          (Expr.add (Expr.mul (Expr.intC (2 * t0)) (Expr.sym v)) (Expr.intC t1)))
        (Expr.exp
          (Expr.add
            (Expr.add (Expr.mul (Expr.intC t0) (Expr.pow (Expr.sym v) (QQ.ofInt 2)))
              (Expr.mul (Expr.intC t1) (Expr.sym v)))
            (Expr.intC t2)))) v
      = Expr.mul (Expr.ratC (QQ.divQ (QQ.ofInt (c * (2 * t0))) (QQ.ofInt (2 * t0))))
          (Expr.exp
            (Expr.add
              (Expr.add (Expr.mul (Expr.intC t0) (Expr.pow (Expr.sym v) (QQ.ofInt 2)))
                (Expr.mul (Expr.intC t1) (Expr.sym v)))
              (Expr.intC t2))) := by
    unfold integrateE
    simp [ht0, show 2 * t0 * t1 = t1 * (2 * t0) from by ring]
  have hv2 : ("C" = v) = False := by simp [Ne.symm hv]
  simp [canonicalCheck, h1, collapse, diffE, Expr.subE, norm, atomNF, addNF,
    mulNF, powNF, insMono, insKey, mulKeys, keysPerm, eraseKey, QQ.addQ, QQ.mulQ, QQ.negQ,
    QQ.subQ, QQ.divQ, QQ.invQ, QQ.ofInt, QQ.isZero, QQ.eqQ, QQ.isInt, QQ.toIntVal,
    QQ.powNat, QQ.powInt, hc, ht0, ht1, hv2,
    show c * (2 * t0) * (t0 * 2) + -(c * (2 * t0) * (2 * t0)) = 0 from by ring]
  try ring

theorem check_log_x (v : String) (hv : v ≠ "C") (c : Int) (hc : c ≠ 0) :
    canonicalCheck (Expr.mul (Expr.intC c) (Expr.log (Expr.sym v))) v = true := by
  have h1 : integrateE (Expr.mul (Expr.intC c) (Expr.log (Expr.sym v))) v
      = Expr.mul (Expr.intC c)
          (Expr.subE (Expr.mul (Expr.sym v) (Expr.log (Expr.sym v))) (Expr.sym v)) := by
    unfold integrateE
    simp
  have hv2 : ("C" = v) = False := by simp [Ne.symm hv]
  simp [canonicalCheck, h1, collapse, diffE, Expr.subE, norm, atomNF, addNF,
    mulNF, powNF, insMono, insKey, mulKeys, keysPerm, eraseKey, QQ.addQ, QQ.mulQ, QQ.negQ,
    QQ.subQ, QQ.divQ, QQ.invQ, QQ.ofInt, QQ.isZero, QQ.eqQ, QQ.isInt, QQ.toIntVal,
    QQ.powNat, QQ.powInt, hc, hv2]
  try ring

theorem check_log_pow (v : String) (hv : v ≠ "C") (c d : Int) (hc : c ≠ 0) (hd : 2 ≤ d) :
    canonicalCheck
      (Expr.mul (Expr.intC c) (Expr.log (Expr.pow (Expr.sym v) (QQ.ofInt d)))) v = true := by
  have hd0 : d ≠ 0 := by omega
  have h1 : integrateE
      (Expr.mul (Expr.intC c) (Expr.log (Expr.pow (Expr.sym v) (QQ.ofInt d)))) v
      = Expr.mul (Expr.intC c)
          (Expr.subE
            (Expr.mul (Expr.sym v) (Expr.log (Expr.pow (Expr.sym v) (QQ.ofInt d))))
            (Expr.mul (Expr.ratC (QQ.ofInt d)) (Expr.sym v))) := by
    unfold integrateE
    simp
  have hv2 : ("C" = v) = False := by simp [Ne.symm hv]
  simp [canonicalCheck, h1, collapse, diffE, Expr.subE, norm, atomNF, addNF,
    mulNF, powNF, insMono, insKey, mulKeys, keysPerm, eraseKey, QQ.addQ, QQ.mulQ, QQ.negQ,
    QQ.subQ, QQ.divQ, QQ.invQ, QQ.ofInt, QQ.isZero, QQ.eqQ, QQ.isInt, QQ.toIntVal,
    QQ.powNat, QQ.powInt, hc, hd0, hv2,
    show ¬(d + -1 = 0) from by omega]
  try ring

theorem check_asin (v : String) (hv : v ≠ "C") (c k : Int) (hc : c ≠ 0) (hk : 1 ≤ k) :
    canonicalCheck
      (Expr.mul (Expr.intC c) (Expr.asin (Expr.mul (Expr.intC k) (Expr.sym v)))) v = true := by
  have h1 : integrateE
      (Expr.mul (Expr.intC c) (Expr.asin (Expr.mul (Expr.intC k) (Expr.sym v)))) v
      = Expr.mul (Expr.intC c)
          (Expr.add
            (Expr.mul (Expr.sym v) (Expr.asin (Expr.mul (Expr.intC k) (Expr.sym v))))
            (Expr.mul (Expr.ratC (QQ.invQ (QQ.ofInt k)))
              (Expr.pow (oneMinusSq (Expr.mul (Expr.intC k) (Expr.sym v))) ⟨1, 2⟩))) := by
    unfold integrateE
    simp
  have hv2 : ("C" = v) = False := by simp [Ne.symm hv]
  have hk0 : k ≠ 0 := by omega
  by_cases hk1 : k = 1
  · subst hk1
    simp [canonicalCheck, h1, collapse, diffE, Expr.subE, oneMinusSq, norm, atomNF, addNF,
      mulNF, powNF, insMono, insKey, mulKeys, keysPerm, eraseKey, QQ.addQ, QQ.mulQ, QQ.negQ,
      QQ.subQ, QQ.divQ, QQ.invQ, QQ.ofInt, QQ.isZero, QQ.eqQ, QQ.isInt, QQ.toIntVal,
      QQ.powNat, QQ.powInt, hc, hv2]
    try ring
  · have hkk : ¬(k * k = 1) := by
      intro h
      have hk2 : 2 ≤ k := by omega
      nlinarith
    simp [canonicalCheck, h1, collapse, diffE, Expr.subE, oneMinusSq, norm, atomNF, addNF,
      mulNF, powNF, insMono, insKey, mulKeys, keysPerm, eraseKey, QQ.addQ, QQ.mulQ, QQ.negQ,
      QQ.subQ, QQ.divQ, QQ.invQ, QQ.ofInt, QQ.isZero, QQ.eqQ, QQ.isInt, QQ.toIntVal,
      QQ.powNat, QQ.powInt, hc, hk0, hk1, hkk, hv2,
      show k * (k * 2) + -(2 * k * k) = 0 from by ring,
      show k * (2 * k) + -(2 * k * k) = 0 from by ring]
    try ring

theorem check_atan (v : String) (hv : v ≠ "C") (c k : Int) (hc : c ≠ 0) (hk : 1 ≤ k) :
    canonicalCheck
      (Expr.mul (Expr.intC c) (Expr.atan (Expr.mul (Expr.intC k) (Expr.sym v)))) v = true := by
  have h1 : integrateE
      (Expr.mul (Expr.intC c) (Expr.atan (Expr.mul (Expr.intC k) (Expr.sym v)))) v
      = Expr.mul (Expr.intC c)
          (Expr.subE
            (Expr.mul (Expr.sym v) (Expr.atan (Expr.mul (Expr.intC k) (Expr.sym v))))
            (Expr.mul (Expr.ratC (QQ.invQ (QQ.ofInt (2 * k))))
              (Expr.log (onePlusSq (Expr.mul (Expr.intC k) (Expr.sym v)))))) := by
    unfold integrateE
    simp
  have hv2 : ("C" = v) = False := by simp [Ne.symm hv]
  have hk0 : k ≠ 0 := by omega
  by_cases hk1 : k = 1
  · subst hk1
    simp [canonicalCheck, h1, collapse, diffE, Expr.subE, onePlusSq, norm, atomNF, addNF,
      mulNF, powNF, insMono, insKey, mulKeys, keysPerm, eraseKey, QQ.addQ, QQ.mulQ, QQ.negQ,
      QQ.subQ, QQ.divQ, QQ.invQ, QQ.ofInt, QQ.isZero, QQ.eqQ, QQ.isInt, QQ.toIntVal,
      QQ.powNat, QQ.powInt, hc, hv2]
    try ring
  · have hkk : ¬(k * k = 1) := by
      intro h
      have hk2 : 2 ≤ k := by omega
      nlinarith
    simp [canonicalCheck, h1, collapse, diffE, Expr.subE, onePlusSq, norm, atomNF, addNF,
      mulNF, powNF, insMono, insKey, mulKeys, keysPerm, eraseKey, QQ.addQ, QQ.mulQ, QQ.negQ,
      QQ.subQ, QQ.divQ, QQ.invQ, QQ.ofInt, QQ.isZero, QQ.eqQ, QQ.isInt, QQ.toIntVal,
      QQ.powNat, QQ.powInt, hc, hk0, hk1, hkk, hv2,
      show k * (k * 2) + -(2 * k * k) = 0 from by ring,
      show k * (2 * k) + -(2 * k * k) = 0 from by ring]
    try ring


theorem check_pet_ufun (v : String) (hv : v ≠ "C") (c n kk : Int) (ft : String)
    (hc : c ≠ 0) (hn : 1 ≤ n) (hft : ft = "sin" ∨ ft = "cos") :
    canonicalCheck
      (Expr.mul (Expr.intC c)
        (Expr.mul (Expr.pow (Expr.sym v) (QQ.ofInt n))
          (Expr.ufun ft (Expr.mul (Expr.intC kk) (Expr.sym v))))) v = true := by
  have hn0 : n ≠ 0 := by omega
  have h1 : integrateE
      (Expr.mul (Expr.intC c)
        (Expr.mul (Expr.pow (Expr.sym v) (QQ.ofInt n))
          (Expr.ufun ft (Expr.mul (Expr.intC kk) (Expr.sym v))))) v
      = Expr.integralOf
          (Expr.mul (Expr.intC c)
            (Expr.mul (Expr.pow (Expr.sym v) (QQ.ofInt n))
              (Expr.ufun ft (Expr.mul (Expr.intC kk) (Expr.sym v))))) v := rfl
  have hv2 : ("C" = v) = False := by simp [Ne.symm hv]
  rcases hft with rfl | rfl <;>
    simp [canonicalCheck, h1, collapse, diffE, Expr.subE, norm, atomNF, addNF,
      mulNF, powNF, insMono, insKey, mulKeys, keysPerm, eraseKey, QQ.addQ, QQ.mulQ, QQ.negQ,
      QQ.subQ, QQ.divQ, QQ.invQ, QQ.ofInt, QQ.isZero, QQ.eqQ, QQ.isInt, QQ.toIntVal,
      QQ.powNat, QQ.powInt, hc, hn0, hv2]


theorem collapse_intPowExp (v : String) : ∀ k, collapse (intPowExp v k) = intPowExp v k := by
  intro k
  induction k with
  | zero => rfl
  | succ j ih => simp [intPowExp, collapse, Expr.subE, ih]

theorem norm_diffE_intPowExp (v : String) :
    ∀ k : Nat, norm (diffE (intPowExp v (k + 1)) v)
      = [(⟨1, 1⟩, [(Expr.sym v, ⟨(k : Int) + 1, 1⟩), (Expr.exp (Expr.sym v), ⟨1, 1⟩)])] := by
  intro k
  induction k with
  | zero =>
      simp [intPowExp, diffE, Expr.subE, norm, atomNF, addNF, mulNF, powNF, insMono, insKey,
        mulKeys, keysPerm, eraseKey, QQ.addQ, QQ.mulQ, QQ.negQ, QQ.subQ, QQ.ofInt,
        QQ.isZero, QQ.eqQ, QQ.isInt, QQ.toIntVal, QQ.powNat, QQ.powInt]
  | succ j ih =>
      rw [show intPowExp v (j + 1 + 1)
          = Expr.subE
              (Expr.mul (Expr.pow (Expr.sym v) (QQ.ofInt ((j + 1 : Int) + 1)))
                (Expr.exp (Expr.sym v)))
              (Expr.mul (Expr.intC ((j + 1 : Int) + 1)) (intPowExp v (j + 1))) from rfl]
      generalize intPowExp v (j + 1) = G at ih ⊢
      simp [diffE, Expr.subE, norm, atomNF, addNF, mulNF, powNF, insMono, insKey,
        mulKeys, keysPerm, eraseKey, QQ.addQ, QQ.mulQ, QQ.negQ, QQ.subQ, QQ.ofInt,
        QQ.isZero, QQ.eqQ, QQ.isInt, QQ.toIntVal, QQ.powNat, QQ.powInt, ih,
        show ¬((j : Int) + 1 = 0) from by omega,
        show ¬((j : Int) + 1 + 1 = 0) from by omega,
        show ¬(-1 + (-1 + -(j : Int)) = 0) from by omega,
        show (-1 + (-1 + -(j : Int))) * 1 + ((j : Int) + 1 + 1) * 1 = 0 from by ring,
        show -1 + (-1 + -(j : Int)) + ((j : Int) + 1 + 1) = 0 from by ring]
      try ring


theorem collapse_intPowSinCos (v : String) :
    ∀ k, collapse (intPowSinCos v k).1 = (intPowSinCos v k).1
       ∧ collapse (intPowSinCos v k).2 = (intPowSinCos v k).2 := by
  intro k
  induction k with
  | zero => exact ⟨rfl, rfl⟩
  | succ j ih => constructor <;> simp [intPowSinCos, collapse, Expr.subE, ih.1, ih.2]

theorem norm_diffE_intPowSinCos (v : String) :
    ∀ k : Nat,
      norm (diffE (intPowSinCos v (k + 1)).1 v)
        = [(⟨1, 1⟩, [(Expr.sym v, ⟨(k : Int) + 1, 1⟩), (Expr.sin (Expr.sym v), ⟨1, 1⟩)])]
      ∧ norm (diffE (intPowSinCos v (k + 1)).2 v)
        = [(⟨1, 1⟩, [(Expr.sym v, ⟨(k : Int) + 1, 1⟩), (Expr.cos (Expr.sym v), ⟨1, 1⟩)])] := by
  intro k
  induction k with
  | zero =>
      constructor <;>
        simp [intPowSinCos, diffE, Expr.subE, norm, atomNF, addNF, mulNF, powNF, insMono,
          insKey, mulKeys, keysPerm, eraseKey, QQ.addQ, QQ.mulQ, QQ.negQ, QQ.subQ, QQ.ofInt,
          QQ.isZero, QQ.eqQ, QQ.isInt, QQ.toIntVal, QQ.powNat, QQ.powInt]
  | succ j ih =>
      rw [show (intPowSinCos v (j + 1 + 1)).1
          = Expr.add
              (Expr.mul (Expr.intC (-1))
                (Expr.mul (Expr.pow (Expr.sym v) (QQ.ofInt ((j + 1 : Int) + 1)))
                  (Expr.cos (Expr.sym v))))
              (Expr.mul (Expr.intC ((j + 1 : Int) + 1)) (intPowSinCos v (j + 1)).2) from rfl,
        show (intPowSinCos v (j + 1 + 1)).2
          = Expr.subE
              (Expr.mul (Expr.pow (Expr.sym v) (QQ.ofInt ((j + 1 : Int) + 1)))
                (Expr.sin (Expr.sym v)))
              (Expr.mul (Expr.intC ((j + 1 : Int) + 1)) (intPowSinCos v (j + 1)).1) from rfl]
      generalize (intPowSinCos v (j + 1)).1 = G1 at ih ⊢
      generalize (intPowSinCos v (j + 1)).2 = G2 at ih ⊢
      constructor <;>
        simp [diffE, Expr.subE, norm, atomNF, addNF, mulNF, powNF, insMono, insKey,
          mulKeys, keysPerm, eraseKey, QQ.addQ, QQ.mulQ, QQ.negQ, QQ.subQ, QQ.ofInt,
          QQ.isZero, QQ.eqQ, QQ.isInt, QQ.toIntVal, QQ.powNat, QQ.powInt, ih.1, ih.2,
          show ¬((j : Int) + 1 = 0) from by omega,
          show ¬((j : Int) + 1 + 1 = 0) from by omega,
          show ¬(-1 + (-1 + -(j : Int)) = 0) from by omega,
          show (-1 + (-1 + -(j : Int))) * 1 + ((j : Int) + 1 + 1) * 1 = 0 from by ring,
          show -1 + (-1 + -(j : Int)) + ((j : Int) + 1 + 1) = 0 from by ring] <;>
      try ring


theorem check_poly_exp (v : String) (hv : v ≠ "C") (c n : Int) (hc : c ≠ 0) (hn : 1 ≤ n) :
    canonicalCheck
      (Expr.mul (Expr.intC c)
        (Expr.mul (Expr.pow (Expr.sym v) (QQ.ofInt n)) (Expr.exp (Expr.sym v)))) v = true := by
  have hv2 : ("C" = v) = False := by simp [Ne.symm hv]
  have h1 : integrateE
      (Expr.mul (Expr.intC c)
        (Expr.mul (Expr.pow (Expr.sym v) (QQ.ofInt n)) (Expr.exp (Expr.sym v)))) v
      = Expr.mul (Expr.intC c) (intPowExp v n.toNat) := by
    unfold integrateE
    simp [QQ.isInt, QQ.ofInt, QQ.toIntVal, show (0 : Int) ≤ n from by omega]
  obtain ⟨m, hm⟩ : ∃ m, n.toNat = m + 1 := ⟨n.toNat - 1, by omega⟩
  have hm2 : n = (m : Int) + 1 := by omega
  unfold canonicalCheck
  rw [h1, hm]
  have hcol : collapse (intPowExp v (m + 1)) = intPowExp v (m + 1) :=
    collapse_intPowExp v (m + 1)
  have hnd : norm (diffE (intPowExp v (m + 1)) v)
      = [(⟨1, 1⟩, [(Expr.sym v, ⟨(m : Int) + 1, 1⟩), (Expr.exp (Expr.sym v), ⟨1, 1⟩)])] :=
    norm_diffE_intPowExp v m
  generalize intPowExp v (m + 1) = G at hcol hnd ⊢
  simp [collapse, diffE, Expr.subE, norm, atomNF, addNF, mulNF, powNF, insMono, insKey,
    mulKeys, keysPerm, eraseKey, QQ.addQ, QQ.mulQ, QQ.negQ, QQ.subQ, QQ.ofInt,
    QQ.isZero, QQ.eqQ, QQ.isInt, QQ.toIntVal, QQ.powNat, QQ.powInt, hcol, hnd, hv2, hc, hm2,
    show ¬((m : Int) + 1 = 0) from by omega]
  try ring


theorem check_poly_sin (v : String) (hv : v ≠ "C") (c n : Int) (hc : c ≠ 0) (hn : 1 ≤ n) :
    canonicalCheck
      (Expr.mul (Expr.intC c)
        (Expr.mul (Expr.pow (Expr.sym v) (QQ.ofInt n)) (Expr.sin (Expr.sym v)))) v = true := by
  have hv2 : ("C" = v) = False := by simp [Ne.symm hv]
  have h1 : integrateE
      (Expr.mul (Expr.intC c)
        (Expr.mul (Expr.pow (Expr.sym v) (QQ.ofInt n)) (Expr.sin (Expr.sym v)))) v
      = Expr.mul (Expr.intC c) (intPowSinCos v n.toNat).1 := by
    unfold integrateE
    simp [QQ.isInt, QQ.ofInt, QQ.toIntVal, show (0 : Int) ≤ n from by omega]
  obtain ⟨m, hm⟩ : ∃ m, n.toNat = m + 1 := ⟨n.toNat - 1, by omega⟩
  have hm2 : n = (m : Int) + 1 := by omega
  unfold canonicalCheck
  rw [h1, hm]
  have hcol : collapse (intPowSinCos v (m + 1)).1 = (intPowSinCos v (m + 1)).1 :=
    (collapse_intPowSinCos v (m + 1)).1
  have hnd : norm (diffE (intPowSinCos v (m + 1)).1 v)
      = [(⟨1, 1⟩, [(Expr.sym v, ⟨(m : Int) + 1, 1⟩), (Expr.sin (Expr.sym v), ⟨1, 1⟩)])] :=
    (norm_diffE_intPowSinCos v m).1
  generalize (intPowSinCos v (m + 1)).1 = G at hcol hnd ⊢
  simp [collapse, diffE, Expr.subE, norm, atomNF, addNF, mulNF, powNF, insMono, insKey,
    mulKeys, keysPerm, eraseKey, QQ.addQ, QQ.mulQ, QQ.negQ, QQ.subQ, QQ.ofInt,
    QQ.isZero, QQ.eqQ, QQ.isInt, QQ.toIntVal, QQ.powNat, QQ.powInt, hcol, hnd, hv2, hc, hm2,
    show ¬((m : Int) + 1 = 0) from by omega]
  try ring

theorem check_poly_cos (v : String) (hv : v ≠ "C") (c n : Int) (hc : c ≠ 0) (hn : 1 ≤ n) :
    canonicalCheck
      (Expr.mul (Expr.intC c)
        (Expr.mul (Expr.pow (Expr.sym v) (QQ.ofInt n)) (Expr.cos (Expr.sym v)))) v = true := by
  have hv2 : ("C" = v) = False := by simp [Ne.symm hv]
  have h1 : integrateE
      (Expr.mul (Expr.intC c)
        (Expr.mul (Expr.pow (Expr.sym v) (QQ.ofInt n)) (Expr.cos (Expr.sym v)))) v
      = Expr.mul (Expr.intC c) (intPowSinCos v n.toNat).2 := by
    unfold integrateE
    simp [QQ.isInt, QQ.ofInt, QQ.toIntVal, show (0 : Int) ≤ n from by omega]
  obtain ⟨m, hm⟩ : ∃ m, n.toNat = m + 1 := ⟨n.toNat - 1, by omega⟩
  have hm2 : n = (m : Int) + 1 := by omega
  unfold canonicalCheck
  rw [h1, hm]
  have hcol : collapse (intPowSinCos v (m + 1)).2 = (intPowSinCos v (m + 1)).2 :=
    (collapse_intPowSinCos v (m + 1)).2
  have hnd : norm (diffE (intPowSinCos v (m + 1)).2 v)
      = [(⟨1, 1⟩, [(Expr.sym v, ⟨(m : Int) + 1, 1⟩), (Expr.cos (Expr.sym v), ⟨1, 1⟩)])] :=
    (norm_diffE_intPowSinCos v m).2
  generalize (intPowSinCos v (m + 1)).2 = G at hcol hnd ⊢
  simp [collapse, diffE, Expr.subE, norm, atomNF, addNF, mulNF, powNF, insMono, insKey,
    mulKeys, keysPerm, eraseKey, QQ.addQ, QQ.mulQ, QQ.negQ, QQ.subQ, QQ.ofInt,
    QQ.isZero, QQ.eqQ, QQ.isInt, QQ.toIntVal, QQ.powNat, QQ.powInt, hcol, hnd, hv2, hc, hm2,
    show ¬((m : Int) + 1 = 0) from by omega]
  try ring


theorem check_poly_exp_all (v : String) (hv : v ≠ "C") (c n : Int) (hc : c ≠ 0) :
    canonicalCheck
      (Expr.mul (Expr.intC c)
        (Expr.mul (Expr.pow (Expr.sym v) (QQ.ofInt n)) (Expr.exp (Expr.sym v)))) v = true := by
  have hv2 : ("C" = v) = False := by simp [Ne.symm hv]
  rcases lt_trichotomy n 0 with hn | rfl | hn
  · have h1 : integrateE
        (Expr.mul (Expr.intC c)
          (Expr.mul (Expr.pow (Expr.sym v) (QQ.ofInt n)) (Expr.exp (Expr.sym v)))) v
        = Expr.integralOf
            (Expr.mul (Expr.intC c)
              (Expr.mul (Expr.pow (Expr.sym v) (QQ.ofInt n)) (Expr.exp (Expr.sym v)))) v := by
      unfold integrateE
      simp [QQ.isInt, QQ.ofInt, QQ.toIntVal, show ¬((0 : Int) ≤ n) from by omega]
    simp [canonicalCheck, h1, collapse, diffE, Expr.subE, norm, atomNF, addNF, mulNF, powNF,
      insMono, insKey, mulKeys, keysPerm, eraseKey, QQ.addQ, QQ.mulQ, QQ.negQ, QQ.subQ,
      QQ.ofInt, QQ.isZero, QQ.eqQ, QQ.isInt, QQ.toIntVal, QQ.powNat, QQ.powInt, hv2, hc,
      show ¬(n = 0) from by omega]
    try ring
  · have h1 : integrateE
        (Expr.mul (Expr.intC c)
          (Expr.mul (Expr.pow (Expr.sym v) (QQ.ofInt 0)) (Expr.exp (Expr.sym v)))) v
        = Expr.mul (Expr.intC c) (intPowExp v 0) := by
      unfold integrateE
      simp [QQ.isInt, QQ.ofInt, QQ.toIntVal]
    simp [canonicalCheck, h1, intPowExp, collapse, diffE, Expr.subE, norm, atomNF, addNF,
      mulNF, powNF, insMono, insKey, mulKeys, keysPerm, eraseKey, QQ.addQ, QQ.mulQ, QQ.negQ,
      QQ.subQ, QQ.ofInt, QQ.isZero, QQ.eqQ, QQ.isInt, QQ.toIntVal, QQ.powNat, QQ.powInt,
      hv2, hc]
    try ring
  · exact check_poly_exp v hv c n hc (by omega)

theorem check_poly_sin_all (v : String) (hv : v ≠ "C") (c n : Int) (hc : c ≠ 0) :
    canonicalCheck
      (Expr.mul (Expr.intC c)
        (Expr.mul (Expr.pow (Expr.sym v) (QQ.ofInt n)) (Expr.sin (Expr.sym v)))) v = true := by
  have hv2 : ("C" = v) = False := by simp [Ne.symm hv]
  rcases lt_trichotomy n 0 with hn | rfl | hn
  · have h1 : integrateE
        (Expr.mul (Expr.intC c)
          (Expr.mul (Expr.pow (Expr.sym v) (QQ.ofInt n)) (Expr.sin (Expr.sym v)))) v
        = Expr.integralOf
            (Expr.mul (Expr.intC c)
              (Expr.mul (Expr.pow (Expr.sym v) (QQ.ofInt n)) (Expr.sin (Expr.sym v)))) v := by
      unfold integrateE
      simp [QQ.isInt, QQ.ofInt, QQ.toIntVal, show ¬((0 : Int) ≤ n) from by omega]
    simp [canonicalCheck, h1, collapse, diffE, Expr.subE, norm, atomNF, addNF, mulNF, powNF,
      insMono, insKey, mulKeys, keysPerm, eraseKey, QQ.addQ, QQ.mulQ, QQ.negQ, QQ.subQ,
      QQ.ofInt, QQ.isZero, QQ.eqQ, QQ.isInt, QQ.toIntVal, QQ.powNat, QQ.powInt, hv2, hc,
      show ¬(n = 0) from by omega]
    try ring
  · have h1 : integrateE
        (Expr.mul (Expr.intC c)
          (Expr.mul (Expr.pow (Expr.sym v) (QQ.ofInt 0)) (Expr.sin (Expr.sym v)))) v
        = Expr.mul (Expr.intC c) (intPowSinCos v 0).1 := by
      unfold integrateE
      simp [QQ.isInt, QQ.ofInt, QQ.toIntVal]
    simp [canonicalCheck, h1, intPowSinCos, collapse, diffE, Expr.subE, norm, atomNF, addNF,
      mulNF, powNF, insMono, insKey, mulKeys, keysPerm, eraseKey, QQ.addQ, QQ.mulQ, QQ.negQ,
      QQ.subQ, QQ.ofInt, QQ.isZero, QQ.eqQ, QQ.isInt, QQ.toIntVal, QQ.powNat, QQ.powInt,
      hv2, hc]
    try ring
  · exact check_poly_sin v hv c n hc (by omega)

theorem check_poly_cos_all (v : String) (hv : v ≠ "C") (c n : Int) (hc : c ≠ 0) :
    canonicalCheck
      (Expr.mul (Expr.intC c)
        (Expr.mul (Expr.pow (Expr.sym v) (QQ.ofInt n)) (Expr.cos (Expr.sym v)))) v = true := by
  have hv2 : ("C" = v) = False := by simp [Ne.symm hv]
  rcases lt_trichotomy n 0 with hn | rfl | hn
  · have h1 : integrateE
        (Expr.mul (Expr.intC c)
          (Expr.mul (Expr.pow (Expr.sym v) (QQ.ofInt n)) (Expr.cos (Expr.sym v)))) v
        = Expr.integralOf
            (Expr.mul (Expr.intC c)
              (Expr.mul (Expr.pow (Expr.sym v) (QQ.ofInt n)) (Expr.cos (Expr.sym v)))) v := by
      unfold integrateE
      simp [QQ.isInt, QQ.ofInt, QQ.toIntVal, show ¬((0 : Int) ≤ n) from by omega]
    simp [canonicalCheck, h1, collapse, diffE, Expr.subE, norm, atomNF, addNF, mulNF, powNF,
      insMono, insKey, mulKeys, keysPerm, eraseKey, QQ.addQ, QQ.mulQ, QQ.negQ, QQ.subQ,
      QQ.ofInt, QQ.isZero, QQ.eqQ, QQ.isInt, QQ.toIntVal, QQ.powNat, QQ.powInt, hv2, hc,
      show ¬(n = 0) from by omega]
    try ring
  · have h1 : integrateE
        (Expr.mul (Expr.intC c)
          (Expr.mul (Expr.pow (Expr.sym v) (QQ.ofInt 0)) (Expr.cos (Expr.sym v)))) v
        = Expr.mul (Expr.intC c) (intPowSinCos v 0).2 := by
      unfold integrateE
      simp [QQ.isInt, QQ.ofInt, QQ.toIntVal]
    simp [canonicalCheck, h1, intPowSinCos, collapse, diffE, Expr.subE, norm, atomNF, addNF,
      mulNF, powNF, insMono, insKey, mulKeys, keysPerm, eraseKey, QQ.addQ, QQ.mulQ, QQ.negQ,
      QQ.subQ, QQ.ofInt, QQ.isZero, QQ.eqQ, QQ.isInt, QQ.toIntVal, QQ.powNat, QQ.powInt,
      hv2, hc]
    try ring
  · exact check_poly_cos v hv c n hc (by omega)


theorem genSignedTerm_ne_zero (c : IIConfig) (r : PyRandom)
    (h1 : 0 < c.linear_lower_bound) (h2 : c.linear_lower_bound ≤ c.linear_upper_bound) :
    (genSignedTerm c r).1 ≠ 0 := by
  obtain ⟨hlo, hhi⟩ := PyRandom.randint_mem (r := (r.choice c.operators "+").2)
    (a := c.linear_lower_bound) (b := c.linear_upper_bound) h2
  unfold genSignedTerm
  simp only
  split_ifs <;> omega

theorem genCyclic_check (c : IIConfig) (v : String) (hv : v ≠ "C") (r : PyRandom)
    (ho1 : 0 < c.outer_constant_min) (ho2 : c.outer_constant_min ≤ c.outer_constant_max) :
    canonicalCheck (genCyclic c (Expr.sym v) r).1 v = true := by
  have hmem := PyRandom.choice_mem r
    [(Expr.exp (Expr.sym v), Expr.sin (Expr.sym v)),
     (Expr.exp (Expr.sym v), Expr.cos (Expr.sym v)),
     (Expr.sin (Expr.sym v), Expr.cos (Expr.sym v))]
    (Expr.exp (Expr.sym v), Expr.sin (Expr.sym v)) (by simp)
  have hOC := (getOuterConstant_spec c
    ((r.choice
      [(Expr.exp (Expr.sym v), Expr.sin (Expr.sym v)),
       (Expr.exp (Expr.sym v), Expr.cos (Expr.sym v)),
       (Expr.sin (Expr.sym v), Expr.cos (Expr.sym v))]
      (Expr.exp (Expr.sym v), Expr.sin (Expr.sym v))).2) ho1 ho2).1
  simp only [genCyclic]
  simp only [List.mem_cons, List.not_mem_nil, or_false] at hmem
  rcases hmem with h | h | h <;> rw [h]
  · exact check_cyclic_es v hv _ hOC
  · exact check_cyclic_ec v hv _ hOC
  · exact check_cyclic_sc v hv _ hOC

theorem genRepeatedParts_check (c : IIConfig) (v : String) (hv : v ≠ "C") (r : PyRandom)
    (ho1 : 0 < c.outer_constant_min) (ho2 : c.outer_constant_min ≤ c.outer_constant_max) :
    canonicalCheck (genRepeatedParts c (Expr.sym v) r).1 v = true := by
  have hmem := PyRandom.choice_mem ((r.randint 3 c.max_poly_degree).2)
    [Expr.sin (Expr.sym v), Expr.cos (Expr.sym v), Expr.exp (Expr.sym v)]
    (Expr.sin (Expr.sym v)) (by simp)
  have hOC := (getOuterConstant_spec c
    (((r.randint 3 c.max_poly_degree).2.choice
      [Expr.sin (Expr.sym v), Expr.cos (Expr.sym v), Expr.exp (Expr.sym v)]
      (Expr.sin (Expr.sym v))).2) ho1 ho2).1
  simp only [genRepeatedParts]
  simp only [List.mem_cons, List.not_mem_nil, or_false] at hmem
  rcases hmem with h | h | h <;> rw [h]
  · exact check_poly_sin_all v hv _ _ hOC
  · exact check_poly_cos_all v hv _ _ hOC
  · exact check_poly_exp_all v hv _ _ hOC

theorem genRadical_check (c : IIConfig) (v : String) (hv : v ≠ "C") (r : PyRandom)
    (hl1 : 0 < c.linear_lower_bound) (hl2 : c.linear_lower_bound ≤ c.linear_upper_bound)
    (ho1 : 0 < c.outer_constant_min) (ho2 : c.outer_constant_min ≤ c.outer_constant_max) :
    canonicalCheck (genRadical c (Expr.sym v) r).1 v = true := by
  have ha := genSignedTerm_ne_zero c r hl1 hl2
  have hb := genSignedTerm_ne_zero c (genSignedTerm c r).2 hl1 hl2
  have hOC := (getOuterConstant_spec c (genSignedTerm c (genSignedTerm c r).2).2 ho1 ho2).1
  simp only [genRadical, Expr.sqrtE]
  exact check_radical v hv _ _ _ hOC ha hb

theorem genExponential_check (c : IIConfig) (v : String) (hv : v ≠ "C") (r : PyRandom)
    (hl1 : 0 < c.linear_lower_bound) (hl2 : c.linear_lower_bound ≤ c.linear_upper_bound)
    (ho1 : 0 < c.outer_constant_min) (ho2 : c.outer_constant_min ≤ c.outer_constant_max) :
    canonicalCheck (genExponential c (Expr.sym v) r).1 v = true := by
  have ht0 := genSignedTerm_ne_zero c ((r.choice ["linear", "quadratic"] "").2) hl1 hl2
  have ht1 := genSignedTerm_ne_zero c
    (genSignedTerm c ((r.choice ["linear", "quadratic"] "").2)).2 hl1 hl2
  have hOCl := (getOuterConstant_spec c
    (genSignedTerm c (genSignedTerm c ((r.choice ["linear", "quadratic"] "").2)).2).2
    ho1 ho2).1
  have hOCq := (getOuterConstant_spec c
    (genSignedTerm c
      (genSignedTerm c (genSignedTerm c ((r.choice ["linear", "quadratic"] "").2)).2).2).2
    ho1 ho2).1
  simp only [genExponential]
  split_ifs with he
  · exact check_exponential_linear v hv _ _ _ hOCl ht0
  · exact check_exponential_quadratic v hv _ _ _ _ hOCq ht0 ht1


theorem genLinear_check (c : IIConfig) (v : String) (hv : v ≠ "C") (r : PyRandom)
    (hl1 : 0 < c.linear_lower_bound) (hl2 : c.linear_lower_bound ≤ c.linear_upper_bound)
    (hd1 : 0 < c.min_linear_degree) (hd2 : c.min_linear_degree ≤ c.max_linear_degree)
    (ho1 : 0 < c.outer_constant_min) (ho2 : c.outer_constant_min ≤ c.outer_constant_max) :
    canonicalCheck (genLinear c (Expr.sym v) r).1 v = true := by
  obtain ⟨hA1, hA2⟩ := PyRandom.randint_mem (r := r)
    (a := c.linear_lower_bound) (b := c.linear_upper_bound) hl2
  obtain ⟨hB1, hB2⟩ := PyRandom.randint_mem
    (r := (r.randint c.linear_lower_bound c.linear_upper_bound).2)
    (a := c.linear_lower_bound) (b := c.linear_upper_bound) hl2
  obtain ⟨hD1, hD2⟩ := PyRandom.randint_mem
    (r := (((r.randint c.linear_lower_bound c.linear_upper_bound).2.randint
      c.linear_lower_bound c.linear_upper_bound).2.choice c.operators "+").2)
    (a := c.min_linear_degree) (b := c.max_linear_degree) hd2
  have hOC := (getOuterConstant_spec c
    ((((r.randint c.linear_lower_bound c.linear_upper_bound).2.randint
      c.linear_lower_bound c.linear_upper_bound).2.choice c.operators "+").2.randint
      c.min_linear_degree c.max_linear_degree).2 ho1 ho2).1
  simp only [genLinear]
  split_ifs with hop
  · exact check_linear v hv _ _ _ _ hOC (by omega) (by omega) (by omega)
  · exact check_linear v hv _ _ _ _ hOC (by omega) (by omega) (by omega)

theorem genTrig_check (c : IIConfig) (v : String) (hv : v ≠ "C") (r : PyRandom)
    (hl1 : 0 < c.linear_lower_bound) (hl2 : c.linear_lower_bound ≤ c.linear_upper_bound)
    (ho1 : 0 < c.outer_constant_min) (ho2 : c.outer_constant_min ≤ c.outer_constant_max) :
    canonicalCheck (genTrig c (Expr.sym v) r).1 v = true := by
  have ha := genSignedTerm_ne_zero c ((r.choice ["sin", "cos"] "").2) hl1 hl2
  have hb := genSignedTerm_ne_zero c (genSignedTerm c ((r.choice ["sin", "cos"] "").2)).2
    hl1 hl2
  obtain ⟨hp1, hp2⟩ := PyRandom.randint_mem
    (r := (genSignedTerm c (genSignedTerm c ((r.choice ["sin", "cos"] "").2)).2).2)
    (a := 1) (b := 4) (by norm_num)
  have hOC := (getOuterConstant_spec c
    ((genSignedTerm c (genSignedTerm c ((r.choice ["sin", "cos"] "").2)).2).2.randint 1 4).2
    ho1 ho2).1
  simp only [genTrig]
  split_ifs with ht
  · exact check_trig_sin v hv _ _ _ _ _ hOC (by omega) (by omega) (by omega) (by omega)
  · exact check_trig_cos v hv _ _ _ _ _ hOC (by omega) (by omega) (by omega) (by omega)

theorem genPolyExpTrig_check (c : IIConfig) (v : String) (hv : v ≠ "C") (r : PyRandom)
    (hp1 : 0 < c.min_poly_degree) (hp2 : c.min_poly_degree ≤ c.max_poly_degree)
    (ho1 : 0 < c.outer_constant_min) (ho2 : c.outer_constant_min ≤ c.outer_constant_max) :
    canonicalCheck (genPolyExpTrig c (Expr.sym v) r).1 v = true := by
  obtain ⟨hn1, hn2⟩ := PyRandom.randint_mem (r := r)
    (a := c.min_poly_degree) (b := c.max_poly_degree) hp2
  have hmem := PyRandom.choice_mem ((r.randint c.min_poly_degree c.max_poly_degree).2)
    ["exp", "sin", "cos"] "" (by simp)
  have hOCe := (getOuterConstant_spec c
    (((r.randint c.min_poly_degree c.max_poly_degree).2.choice ["exp", "sin", "cos"] "").2)
    ho1 ho2).1
  have hOCu := (getOuterConstant_spec c
    ((((r.randint c.min_poly_degree c.max_poly_degree).2.choice
      ["exp", "sin", "cos"] "").2.randint 1 3).2) ho1 ho2).1
  simp only [genPolyExpTrig]
  split_ifs with hf
  · exact check_poly_exp_all v hv _ _ hOCe
  · simp only [List.mem_cons, List.not_mem_nil, or_false] at hmem
    have hft : ((r.randint c.min_poly_degree c.max_poly_degree).2.choice
        ["exp", "sin", "cos"] "").1 = "sin" ∨
        ((r.randint c.min_poly_degree c.max_poly_degree).2.choice
        ["exp", "sin", "cos"] "").1 = "cos" := by tauto
    exact check_pet_ufun v hv _ _ _ _ hOCu (by omega) hft

theorem genLogInverseTrig_check (c : IIConfig) (v : String) (hv : v ≠ "C") (r : PyRandom)
    (ho1 : 0 < c.outer_constant_min) (ho2 : c.outer_constant_min ≤ c.outer_constant_max) :
    canonicalCheck (genLogInverseTrig c (Expr.sym v) r).1 v = true := by
  obtain ⟨hk1, hk2⟩ := PyRandom.randint_mem
    (r := ((r.choice ["log", "asin", "atan"] "").2)) (a := 1) (b := 3) (by norm_num)
  obtain ⟨hd1, hd2⟩ := PyRandom.randint_mem
    (r := ((((r.choice ["log", "asin", "atan"] "").2.randint 1 3).2.randfloat).2))
    (a := 2) (b := 3) (by norm_num)
  have hOClog := (getOuterConstant_spec c
    ((((r.choice ["log", "asin", "atan"] "").2.randint 1 3).2.randfloat).2) ho1 ho2).1
  have hOCpow := (getOuterConstant_spec c
    (((((r.choice ["log", "asin", "atan"] "").2.randint 1 3).2.randfloat).2.randint 2 3).2)
    ho1 ho2).1
  have hOCk := (getOuterConstant_spec c
    (((r.choice ["log", "asin", "atan"] "").2.randint 1 3).2) ho1 ho2).1
  simp only [genLogInverseTrig]
  split_ifs with h1 h2 h3
  · exact check_log_x v hv _ hOClog
  · exact check_log_pow v hv _ _ hOCpow (by omega)
  · exact check_asin v hv _ _ hOCk (by omega)
  · exact check_atan v hv _ _ hOCk (by omega)


theorem dispatch_check (c : IIConfig) (hval : c.validate = Except.ok ()) (pt : String)
    (v : String) (hv : v ≠ "C") (r : PyRandom) (p : Expr × PyRandom)
    (h : dispatchProblemType c pt (Expr.sym v) r = some p) :
    canonicalCheck p.1 v = true := by
  obtain ⟨-, -, hl1, hl2, hd1, hd2, ho1, ho2, hp1, hp2, -, -⟩ := IIConfig.validate_ok c hval
  unfold dispatchProblemType at h
  split_ifs at h
  · obtain rfl : p = genLinear c (Expr.sym v) r := (Option.some.inj h).symm
    exact genLinear_check c v hv r hl1 hl2 hd1 hd2 ho1 ho2
  · obtain rfl : p = genTrig c (Expr.sym v) r := (Option.some.inj h).symm
    exact genTrig_check c v hv r hl1 hl2 ho1 ho2
  · obtain rfl : p = genExponential c (Expr.sym v) r := (Option.some.inj h).symm
    exact genExponential_check c v hv r hl1 hl2 ho1 ho2
  · obtain rfl : p = genRadical c (Expr.sym v) r := (Option.some.inj h).symm
    exact genRadical_check c v hv r hl1 hl2 ho1 ho2
  · obtain rfl : p = genLogInverseTrig c (Expr.sym v) r := (Option.some.inj h).symm
    exact genLogInverseTrig_check c v hv r ho1 ho2
  · obtain rfl : p = genPolyExpTrig c (Expr.sym v) r := (Option.some.inj h).symm
    exact genPolyExpTrig_check c v hv r hp1 hp2 ho1 ho2
  · obtain rfl : p = genCyclic c (Expr.sym v) r := (Option.some.inj h).symm
    exact genCyclic_check c v hv r ho1 ho2
  · obtain rfl : p = genRepeatedParts c (Expr.sym v) r := (Option.some.inj h).symm
    exact genRepeatedParts_check c v hv r ho1 ho2

theorem chosenSymbol_ne_C (c : IIConfig)
    (hsy : c.symbols.all (fun s => s == "x" || s == "X") = true) (r : PyRandom) :
    (r.choice c.symbols "x").1 ≠ "C" := by
  by_cases hne : c.symbols = []
  · rw [PyRandom.choice, hne]
    simp [List.getD]
  · have hm := PyRandom.choice_mem r c.symbols "x" hne
    have h2 := List.all_eq_true.mp hsy _ hm
    simp only [Bool.or_eq_true, beq_iff_eq] at h2
    rcases h2 with h | h <;> simp [h]


/-- C3: for every item a validated `IntermediateIntegrationDataset`
produces, `score_answer` returns reward `1` for the item's own canonical
answer (part 1); and any parseable answer whose derivative with respect
to the item's variable equals the stored integrand after simplification
(the normal form of the difference vanishes) also scores `1`, regardless
of its text (part 2). -/
theorem c3_reward_one :
    (∀ (ds : IIDataset) (index : Int) (item : IIItem),
        ds.config.validate = Except.ok () →
        getItemOpt ds index = some item →
        score_answer (some item.answer) item = Except.ok 1)
    ∧
    (∀ (entry : IIItem) (md : IIMetadata) (e g : Expr),
        entry.metadata = some md →
        parseExpr md.integrand = some g →
        (norm (Expr.subE (diffE e md.var_name) g)).isEmpty = true →
        score_answer (some (Sum.inl e)) entry = Except.ok 1) := by
  constructor
  · intro ds index item hval h
    have hsy := (IIConfig.validate_ok ds.config hval).2.2.2.2.2.2.2.2.2.2.2
    unfold getItemOpt at h
    rw [Option.map_eq_some'] at h
    obtain ⟨p, hp, rfl⟩ := h
    have hvC := chosenSymbol_ne_C ds.config hsy
      (((PyRandom.mkGen (ds.seed + index)).choicesOne ds.config.problem_types "").2)
    have hcc := dispatch_check ds.config hval _ _ hvC _ p hp
    unfold canonicalCheck at hcc
    simp only [score_answer, tryScore, parseExpr, strOf]
    rw [hcc]
    rfl
  · intro entry md e g hmd hpi hz
    cases hmi : md.integrand with
    | inr str =>
        rw [hmi] at hpi
        simp [parseExpr] at hpi
    | inl g2 =>
        rw [hmi] at hpi
        simp only [parseExpr, Option.some.injEq] at hpi
        subst hpi
        simp [score_answer, tryScore, hmd, hmi, parseExpr, hz]


/-- C3 witness: the item at index 3 of the dataset seeded with 42 scores
reward `1` on its own canonical answer. -/
theorem c3_reward_one_witness :
    score_answer
      (some ((getItemOpt (mkDataset { IIConfig.default with seed := some 42 } 0) 3).getD
        ⟨(0, Sum.inr ""), Sum.inr "", none⟩).answer)
      ((getItemOpt (mkDataset { IIConfig.default with seed := some 42 } 0) 3).getD
        ⟨(0, Sum.inr ""), Sum.inr "", none⟩) = Except.ok 1 :=
  c3_reward_one.1 (mkDataset { IIConfig.default with seed := some 42 } 0) 3 _ (by rfl) (by rfl)

end RG
